import Mathlib

/-!
Verification of the parseLab packet-generation core (`src/PacketGenerator.py`,
`src/utils/Value.py`, `src/utils/DType.py`, `src/utils/FieldDef.py`,
`src/utils/ValueDef.py`, `src/utils/gen_util.py`) against its natural-language
specification.

The Python code is shallowly embedded:
* machine integers are `Int`/`Nat` with explicit two's-complement handling
  where the `struct` library packs values;
* the global RNG (`random.randint`, `random.randrange`, `random.random`)
  becomes an explicit stream of naturals (`Rng`); every outcome the Python
  RNG can produce is produced by some stream;
* the module-level dependency table `gen_util.dependency_values` becomes an
  explicitly threaded association list (`Dv`);
* fallible code returns `Except String`;
* Python `float` objects are carried opaquely as an `Int` payload: the claims
  under study never depend on float arithmetic, only on which code path a
  float value selects and on (dis)equality of independently produced samples;
* recursion through structs and recursive `Value` constraints is driven by an
  explicit fuel parameter; fuel exhaustion yields `Except.error fuelMsg`,
  and every theorem is either stated at concrete fuel or conditioned on a
  successful (`Except.ok`) run.
-/

/-- Error message used for fuel exhaustion in all fueled functions. -/
def fuelMsg : String := "out of fuel"

/-! ## gen_util.py basics -/

/-- The `INVALID_TYPE` enumeration of `gen_util.py` (lines 125-133). -/
inductive InvalidType where
  | validValue
  | invalidValue
  | greaterThanBounds
  | lessThanBounds
  | swapListItems
  | lowListLength
  | highListLength
deriving DecidableEq, Repr, BEq

/-- Python `Enum.name` for `INVALID_TYPE` members. -/
def InvalidType.pyName : InvalidType → String
  | .validValue => "VALID_VALUE"
  | .invalidValue => "INVALID_VALUE"
  | .greaterThanBounds => "GREATER_THAN_BOUNDS"
  | .lessThanBounds => "LESS_THAN_BOUNDS"
  | .swapListItems => "SWAP_LIST_ITEMS"
  | .lowListLength => "LOW_LIST_LENGTH"
  | .highListLength => "HIGH_LIST_LENGTH"

/-- `gen_util.get_bounds(size, signed)`: the INCLUSIVE integer bounds of a
native type of `size` bits (gen_util.py lines 290-304). -/
def getBounds (size : Nat) (signed : Bool) : Int × Int :=
  if signed then (-(2 ^ (size - 1) : Int), (2 ^ (size - 1) : Int) - 1)
  else (0, (2 ^ size : Int) - 1)

/-! ## RNG stream

The Python RNG is modelled as a stream (list) of naturals; each primitive
draw consumes the head (`0` once the stream is exhausted, so the model is
total).  Each primitive maps the drawn natural onto exactly the support of
the corresponding Python primitive. -/

/-- A state of the random number generator: the stream of raw draws. -/
abbrev Rng := List Nat

/-- Consume one raw draw. -/
def drawNat (g : Rng) : Nat × Rng := (g.headD 0, g.tail)

/-- `random.randint(lo, hi)`: uniform on the inclusive range; raises
`ValueError` when `lo > hi`. -/
def pyRandint (lo hi : Int) (g : Rng) : Except String (Int × Rng) :=
  if lo > hi then .error "randint: empty range"
  else .ok (lo + (Int.ofNat (drawNat g).1) % (hi - lo + 1), (drawNat g).2)

/-- `random.randrange(lo, hi)`: uniform on `[lo, hi)`; raises when the
range is empty. -/
def pyRandrangeInt (lo hi : Int) (g : Rng) : Except String (Int × Rng) :=
  if hi ≤ lo then .error "randrange: empty range"
  else .ok (lo + (Int.ofNat (drawNat g).1) % (hi - lo), (drawNat g).2)

/-- `random.randrange(n)` on naturals: uniform on `[0, n)`. -/
def pyRandrange (n : Nat) (g : Rng) : Except String (Nat × Rng) :=
  if n = 0 then .error "randrange: empty range"
  else .ok ((drawNat g).1 % n, (drawNat g).2)

/-- The test `random.random() < .5`: a fair coin. -/
def pyCoin (g : Rng) : Bool × Rng := ((drawNat g).1 % 2 = 0, (drawNat g).2)

/-- A draw of an opaque float payload (used for `np.random` and
`random.uniform` samples; float numerics are outside the claims). -/
def pyFloatDraw (g : Rng) : Int × Rng := (Int.ofNat (drawNat g).1, (drawNat g).2)

/-! ## Python integer bitwise operations

Python `&`, `|`, `<<`, `>>` on arbitrary-precision integers, with
two's-complement semantics on negative operands. -/

/-- Python bitwise AND on arbitrary integers. -/
def pyAnd (a b : Int) : Int :=
  if 0 ≤ a then
    if 0 ≤ b then Int.ofNat (a.toNat &&& b.toNat)
    else Int.ofNat (a.toNat - (a.toNat &&& (-b - 1).toNat))
  else
    if 0 ≤ b then Int.ofNat (b.toNat - (b.toNat &&& (-a - 1).toNat))
    else -(Int.ofNat ((-a - 1).toNat ||| (-b - 1).toNat)) - 1

/-- Python bitwise OR on arbitrary integers (De Morgan via `pyAnd` when
either operand is negative). -/
def pyOr (a b : Int) : Int :=
  if 0 ≤ a ∧ 0 ≤ b then Int.ofNat (a.toNat ||| b.toNat)
  else -(pyAnd (-a - 1) (-b - 1)) - 1

/-- Python `a << n` (`n ≥ 0`). -/
def pyShl (a : Int) (n : Nat) : Int := a * 2 ^ n

/-- Python `a >> n` (`n ≥ 0`): arithmetic (floor) shift. -/
def pyShr (a : Int) (n : Nat) : Int := Int.fdiv a (2 ^ n)

example : pyOr 8 3 = 11 := by decide
example : pyAnd 12 10 = 8 := by decide
example : pyShl 3 4 = 48 := by decide
example : pyShr (-3) 1 = -2 := by decide

/-! ## Python values

A generated value is a Python `int`, a Python `float` (carried as an opaque
payload), a list of such values, or -- on one code path of
`ValueChoice.generate_invalid_value` -- a nested `GeneratedValue` object
(whose own dtype is the very same shared dtype object, so only its
classification and value need to be carried). -/

/-- A Python value as produced by the generators. -/
inductive PyVal where
  | int (n : Int)
  | float (payload : Int)
  | list (xs : List PyVal)
  | wrapped (t : InvalidType) (v : PyVal)

mutual

/-- Python `==` on generated values.  Cross-type numeric equality never
arises on the compared paths (both operands come from the same dtype), and
`GeneratedValue` objects compare by identity (so distinct ones are unequal). -/
def pyEq : PyVal → PyVal → Bool
  | .int a, .int b => a = b
  | .float a, .float b => a = b
  | .list xs, .list ys => pyEqList xs ys
  | _, _ => false

/-- Pointwise Python `==` on lists. -/
def pyEqList : List PyVal → List PyVal → Bool
  | [], [] => true
  | x :: xs, y :: ys => pyEq x y && pyEqList xs ys
  | _, _ => false

end

/-- Python `int(x)` on a value read back from the dependency table
(`int()` of a float truncates; with opaque payloads the payload is kept;
`int()` of a list raises `TypeError`). -/
def pyToInt : PyVal → Except String Int
  | .int n => .ok n
  | .float p => .ok p
  | _ => .error "int(): not a number"

/-! ## The specification data model

`Value.py` constraints (`ValueSingle`, `ValueRange`, `ValueChoice`,
`ValueList`).  Every `Value` object in the source holds a reference to its
field's `DType`; in the embedding the dtype is passed alongside the
constraint, which mirrors that sharing. -/

/-- The `Value` constraint hierarchy of `Value.py`.  Numeric literals are
`Int` (for a float dtype the integer is the opaque float payload). -/
inductive ValueT where
  | single (v : Int)
  | range (lo hi : Int)
  | choice (items : List ValueT)
  | vlist (items : List ValueT)

/-- `DType.py` descriptor, parametrized by the struct type so that the struct
reference can be a (strictly positive) occurrence.  Field names follow the
Python attribute names. -/
structure DTypeP (σ : Type) where
  signed : Bool
  is_int : Bool
  is_float : Bool
  is_list : Bool
  list_count : Nat
  has_type_dependency : Bool
  dependency : String
  dependee : String
  is_big_endian : Bool
  size : Nat
  struct_ref : Option σ

/-- `FieldDef.py` field definition, parametrized like `DTypeP`.  The
`value` component is `ValueDef.value` (`none` when the field declares no
constraint). -/
structure FieldP (σ : Type) where
  name : String
  strict : Bool
  value : Option ValueT
  dtype : DTypeP σ

/-- A `Struct` of `DType.py`: a name and the ordered member fields.  Struct
references are resolved at parse time and must be declared before use, so
the object graph is a tree. -/
inductive StructT where
  | mk (name : String) (members : List (FieldP StructT))

/-- A fully resolved `DType`. -/
abbrev DTy := DTypeP StructT

/-- A fully resolved `FieldDef`. -/
abbrev FieldT := FieldP StructT

/-- Struct name accessor. -/
def StructT.sname : StructT → String
  | .mk n _ => n

/-- Struct members accessor. -/
def StructT.members : StructT → List FieldT
  | .mk _ ms => ms

/-- `DType.is_struct` is true exactly when a struct reference was resolved
(`DType.parse_dtype_string`). -/
def DTypeP.is_struct (dt : DTy) : Bool := dt.struct_ref.isSome

/-- `DType.bounds`, computed in `DType.__init__` from
`get_bounds(self.get_size_in_bits(), self.signed)`. -/
def DTypeP.bounds (dt : DTy) : Int × Int := getBounds dt.size dt.signed

/-- `MessageType.py`: a name plus the ordered field list. -/
structure MessageTypeT where
  name : String
  fields : List FieldT

/-- A `GeneratedValue` (GeneratedValue.py): classification, concrete value
and the dtype it was generated for. -/
structure GenV where
  value_type : InvalidType
  value : PyVal
  dtype : DTy

/-- The dependency table `gen_util.dependency_values`: field name (lower
case) to the most recently generated value.  Insertion shadows. -/
abbrev Dv := List (String × PyVal)

/-- Table update `dependency_values[key.lower()] = v` guarded by
`if dependee != ''` as in `ValueDef.generate_valid_value` and
`DType.generate_valid_value`. -/
def publishDependee (dependee : String) (v : PyVal) (dv : Dv) : Dv :=
  if dependee = "" then dv else (dependee.toLower, v) :: dv

/-- Table lookup `dependency_values[name.lower()]`. -/
def lookupDependency (name : String) (dv : Dv) : Option PyVal :=
  (dv.find? (fun p => p.1 = name.toLower)).map (·.2)

/-! ## Range merging (`ValueRange.combine_ranges` / `combine_values`)

`combine_ranges` mutates its first argument in place and returns one of the
two argument objects (or `None` for disjoint inputs); `combine_values`
iterates over `itertools.combinations` of the current list, appending the
returned object and removing both pair members by value (`list.remove`,
which raises `ValueError` when no equal element is present).  Because
`prev_len` is assigned the current length at the end of the loop body, the
`while` loop always executes exactly one pass.  The embedding uses an arena:
`store` maps object ids (positions in the original list) to their current
interval value, and the working list holds ids. -/

/-- The numeric interval of a `ValueRange` (`min_bound.value`,
`max_bound.value`).  Within one `combine_values` call all ranges share one
dtype, so `ValueRange.__eq__` reduces to interval equality. -/
structure PyRange where
  lo : Int
  hi : Int
deriving DecidableEq, Repr

/-- Outcome of `ValueRange.combine_ranges(r1, r2)`: `disjoint` for `None`;
`useR2` when the unmutated second object is returned; `useR1 upd` when the
first object is returned, `upd` being its in-place-updated value (`none`
when it is returned unmodified). -/
inductive CombineRes where
  | disjoint
  | useR2
  | useR1 (upd : Option PyRange)
deriving DecidableEq, Repr

/-- Value semantics of `combine_ranges` (Value.py lines 574-628), including
which object is returned and how the first object is mutated. -/
def combineRangesStep (r1 r2 : PyRange) : CombineRes :=
  if r2.lo ≤ r1.lo ∧ r1.lo ≤ r2.hi then
    -- in_range(r1.min, r2)
    if r2.lo ≤ r1.hi ∧ r1.hi ≤ r2.hi then .useR2
    else if r1.hi > r2.hi then .useR1 (some ⟨r2.lo, r1.hi⟩)
    else .useR1 none
  else if r1.lo < r2.lo then
    -- under_range(r1.min, r2)
    if r1.hi < r2.lo then .disjoint
    else if r2.lo ≤ r1.hi ∧ r1.hi ≤ r2.hi then .useR1 (some ⟨r1.lo, r2.hi⟩)
    else .useR1 none
  else .disjoint

/-- Arena read: the current value of object `i`. -/
def getR (store : List PyRange) (i : Nat) : PyRange := store.getD i ⟨0, 0⟩

/-- `itertools.combinations(l, 2)`: ordered pairs of positions `i < j`, in
iteration order. -/
def pairsList {α : Type} : List α → List (α × α)
  | [] => []
  | a :: t => t.map (fun b => (a, b)) ++ pairsList t

/-- `list.remove(x)`: drop the first element whose current value equals
`v`; `none` models the `ValueError` when no element matches. -/
def removeFirstByVal (store : List PyRange) (v : PyRange) :
    List Nat → Option (List Nat)
  | [] => none
  | i :: is =>
    if getR store i = v then some is
    else (removeFirstByVal store v is).map (fun l => i :: l)

/-- Error message for a failed `list.remove`. -/
def removeMsg : String := "list.remove(x): x not in list"

/-- One pass of the `for rc in range_combinations` loop: process the given
pairs of object ids against the evolving store and working list. -/
def goPairs : List (Nat × Nat) → List PyRange → List Nat →
    Except String (List PyRange × List Nat)
  | [], store, l => .ok (store, l)
  | (i, j) :: ps, store, l =>
    match combineRangesStep (getR store i) (getR store j) with
    | .disjoint => goPairs ps store l
    | .useR2 =>
      match removeFirstByVal store (getR store i) (l ++ [j]) with
      | none => .error removeMsg
      | some l2 =>
        match removeFirstByVal store (getR store j) l2 with
        | none => .error removeMsg
        | some l3 => goPairs ps store l3
    | .useR1 upd =>
      let store' := match upd with
        | some v => store.set i v
        | none => store
      match removeFirstByVal store' (getR store' i) (l ++ [i]) with
      | none => .error removeMsg
      | some l2 =>
        match removeFirstByVal store' (getR store' j) l2 with
        | none => .error removeMsg
        | some l3 => goPairs ps store' l3

/-- Deduplication keeping first occurrences: the value-level effect of
`list(set(...))` (Python set order is unspecified; a deterministic
first-occurrence order is fixed here). -/
def dedupRanges (seen : List PyRange) : List PyRange → List PyRange
  | [] => []
  | r :: rs =>
    if r ∈ seen then dedupRanges seen rs
    else r :: dedupRanges (r :: seen) rs

/-- `ValueRange.combine_values` (Value.py lines 630-654): a single merging
pass (the `while` loop exits after one iteration because `prev_len` is set
to the current length at the end of the body), then `list(set(...))`. -/
def combineValues (l : List PyRange) : Except String (List PyRange) :=
  match goPairs (pairsList (List.range l.length)) l (List.range l.length) with
  | .error e => .error e
  | .ok (store', l') => .ok (dedupRanges [] (l'.map (getR store')))

example : combineValues [⟨0, 2⟩, ⟨1, 5⟩] = .ok [⟨0, 5⟩] := rfl
example : combineValues [⟨0, 2⟩, ⟨4, 5⟩] = .ok [⟨0, 2⟩, ⟨4, 5⟩] := rfl
example : combineValues [⟨0, 10⟩, ⟨5, 15⟩, ⟨12, 20⟩] = .error removeMsg := rfl
example : combineValues [⟨0, 1⟩, ⟨0, 1⟩, ⟨0, 1⟩] = .ok [] := rfl

/-! ## DType-level generation (`DType.generate_valid_value` /
`DType.generate_invalid_value`) -/

/-- The concrete Python value of a numeric literal under a dtype: a float
object for float dtypes, an int otherwise (`ValueSingle.parse_single_value`
converts according to the dtype). -/
def scalarVal (dt : DTy) (x : Int) : PyVal :=
  if dt.is_float then .float x else .int x

/-- Resolution of `list_len` at the top of `DType.generate_valid_value`
(DType.py lines 311-325): 0 unless the dtype is a fixed-count list, or a
dependency is read from the table (`int()` conversion may fail). -/
def resolveListLen (dt : DTy) (dv : Dv) : Except String Int :=
  if dt.is_list ∧ ¬dt.has_type_dependency then .ok (Int.ofNat dt.list_count)
  else if dt.has_type_dependency then
    match lookupDependency dt.dependency dv with
    | none => .error "dependency not in dependency_values"
    | some pv => pyToInt pv
  else .ok 0

/-- Draw `n` integers via `random.randint(lo, hi)` (list branch of
`DType.generate_valid_value`). -/
def drawIntList (lo hi : Int) : Nat → Rng → Except String (List Int × Rng)
  | 0, g => .ok ([], g)
  | n + 1, g => do
    let (v, g1) ← pyRandint lo hi g
    let (vs, g2) ← drawIntList lo hi n g1
    .ok (v :: vs, g2)

/-- Draw `n` opaque float samples (float list branch). -/
def drawFloatList : Nat → Rng → List Int × Rng
  | 0, g => ([], g)
  | n + 1, g =>
    let (v, g1) := pyFloatDraw g
    let (vs, g2) := drawFloatList n g1
    (v :: vs, g2)

/-- `DType.generate_valid_value` (DType.py lines 298-356).  Integer scalars
publish to the dependency table when the dtype is a dependee. -/
def dtypeGenValid (dt : DTy) (g : Rng) (dv : Dv) : Except String (GenV × Rng × Dv) := do
  let ll ← resolveListLen dt dv
  if dt.is_float then
    if dt.is_list then
      let (vs, g1) := drawFloatList ll.toNat g
      .ok (⟨.validValue, .list (vs.map PyVal.float), dt⟩, g1, dv)
    else
      let (v, g1) := pyFloatDraw g
      .ok (⟨.validValue, .float v, dt⟩, g1, dv)
  else if dt.is_int then
    let b := getBounds dt.size dt.signed
    if dt.is_list then
      let (vs, g1) ← drawIntList b.1 b.2 ll.toNat g
      .ok (⟨.validValue, .list (vs.map PyVal.int), dt⟩, g1, dv)
    else
      let (v, g1) ← pyRandint b.1 b.2 g
      .ok (⟨.validValue, .int v, dt⟩, g1, publishDependee dt.dependee (.int v) dv)
  else
    .error "DType::generate_valid_value() - Cannot create random value for non-int/non-float values."

/-- `DType.generate_invalid_value` (DType.py lines 263-295): only list
dtypes are supported; with `len <= 1` (or heads on the coin) one extra
valid element is appended (`HIGH_LIST_LENGTH`); otherwise `[:-1]` is
applied first to the generated list and then AGAIN to form the returned
value (`LOW_LIST_LENGTH`), dropping two elements. -/
def dtypeGenInvalid (dt : DTy) (g : Rng) (dv : Dv) : Except String (GenV × Rng × Dv) := do
  if dt.is_list then
    let (gv, g1, dv1) ← dtypeGenValid dt g dv
    match gv.value with
    | .list xs =>
      if xs.length ≤ 1 then
        -- `or` short-circuits: no coin draw
        let (gv2, g2, dv2) ← dtypeGenValid { dt with is_list := false } g1 dv1
        .ok (⟨.highListLength, .list (xs ++ [gv2.value]), dt⟩, g2, dv2)
      else
        let (coin, g2) := pyCoin g1
        if coin then
          let (gv2, g3, dv3) ← dtypeGenValid { dt with is_list := false } g2 dv1
          .ok (⟨.highListLength, .list (xs ++ [gv2.value]), dt⟩, g3, dv3)
        else
          .ok (⟨.lowListLength, .list xs.dropLast.dropLast, dt⟩, g2, dv1)
    | _ => .error "generate_valid_Value() for DType.is_list=True returned a non-list object"
  else
    .error "No current way to generate an invalid DType where the DType is not a list"

/-! ## `generate_number_not_in_set` helpers -/

/-- Extract the interval values of a list of `ValueRange` contents;
anything else would hit an `AttributeError` in the source. -/
def toRanges : List ValueT → Except String (List PyRange)
  | [] => .ok []
  | .range lo hi :: rest => do
    let rs ← toRanges rest
    .ok (⟨lo, hi⟩ :: rs)
  | _ => .error "AttributeError: not a ValueRange"

/-- Extract the literal values of a list of `ValueSingle` contents. -/
def toSingles : List ValueT → Except String (List Int)
  | [] => .ok []
  | .single v :: rest => do
    let vs ← toSingles rest
    .ok (v :: vs)
  | _ => .error "AttributeError: not a ValueSingle"

/-- Deduplication of single values keeping first occurrences (the effect of
`set()` on `ValueSingle` objects sharing one dtype). -/
def dedupInts (seen : List Int) : List Int → List Int
  | [] => []
  | x :: xs => if x ∈ seen then dedupInts seen xs else x :: dedupInts (x :: seen) xs

/-- Deduplication of interval values keeping first occurrences (the effect
of `set()` on `ValueRange` objects sharing one dtype). -/
def dedupRangeVals (seen : List PyRange) : List PyRange → List PyRange
  | [] => []
  | r :: rs => if r ∈ seen then dedupRangeVals seen rs else r :: dedupRangeVals (r :: seen) rs

/-- Stable insertion into an ascending-by-`lo` list: the new element lands
before the first element whose `lo` is not smaller, as Python's stable
`sorted` (which compares only with `ValueRange.__lt__`) places it. -/
def insertByLo (r : PyRange) : List PyRange → List PyRange
  | [] => [r]
  | x :: xs => if x.lo < r.lo then x :: insertByLo r xs else r :: x :: xs

/-- Python `sorted` on ranges: stable ascending by `min_bound.value`
(`ValueRange.__lt__`), as a stable insertion sort. -/
def sortRanges (rs : List PyRange) : List PyRange :=
  rs.foldr insertByLo []

/-- The upward search of `ValueSingle.generate_number_not_in_set` (Value.py
lines 988-995): `offset` never turns negative (`sign` is computed from the
old non-negative offset), so the loop probes `base, base+1, base+2, ...`.
The candidate set `base..base+len` must contain a hit when the value set is
duplicate-free, so the bounded search is exhaustive for the call sites. -/
def searchUpward (base : Int) (vals : List Int) : Nat → Except String Int
  | 0 => .error "unbounded search"
  | k + 1 => if base ∈ vals then searchUpward (base + 1) vals k else .ok base

/-- Bounded model of the float rejection loop (`random.uniform` until the
sample avoids the list). -/
def floatReject (vals : List Int) (g : Rng) : Nat → Except String (PyVal × Rng)
  | 0 => .error "unbounded search"
  | k + 1 =>
    let (v, g1) := pyFloatDraw g
    if v ∈ vals then floatReject vals g1 k else .ok (.float v, g1)

/-- `ValueSingle.generate_number_not_in_set` (Value.py lines 957-995). -/
def singleNotInSet (values : List Int) (dt : DTy) (g : Rng) :
    Except String (PyVal × Rng) := do
  let vset := dedupInts [] values
  let b := getBounds dt.size dt.signed
  if (Int.ofNat vset.length) = b.2 - b.1 then
    .error "The set contains all values in the bounds defined by the data type"
  else if dt.is_float then
    -- rejection sampling against the value list; one opaque draw suffices in
    -- the payload model only when it misses, so retry within the stream
    floatReject vset g (vset.length + 1)
  else
    let (base, g1) ← pyRandint b.1 b.2 g
    let v ← searchUpward base vset (vset.length + 1)
    .ok (.int v, g1)

/-- `ValueRange.generate_number_not_in_set` (Value.py lines 801-833):
requires at least two alternatives, sorts the deduplicated set, picks a
random adjacent pair and samples the gap between them (`random.randint`
raises when the gap is empty). -/
def rangeNotInSet (ranges : List PyRange) (dt : DTy) (g : Rng) :
    Except String (PyVal × Rng) := do
  let rset := dedupRangeVals [] ranges
  if rset.length < 2 then
    .error "Cannot generate number outside of set where number of elements are less than 2"
  else
    let sorted := sortRanges rset
    let (li, g1) ← pyRandint 0 (Int.ofNat (rset.length - 2)) g
    let low := sorted.getD li.toNat ⟨0, 0⟩
    let high := sorted.getD (li.toNat + 1) ⟨0, 0⟩
    if dt.is_int then
      let (v, g2) ← pyRandint (low.hi + 1) (high.lo - 1) g1
      .ok (.int v, g2)
    else if dt.is_float then
      let (v, g2) := pyFloatDraw g1
      .ok (.float v, g2)
    else
      .error "rand_func unbound"

/-! ## `can_generate_invalid_instance` -/

mutual

/-- `FieldDef.can_generate_invalid_instance` (FieldDef.py lines 115-123):
strict fields never invalidate; otherwise the bound value decides, or the
dtype when no value is declared. -/
def fieldCanGen : Nat → FieldT → Except String Bool
  | 0, _ => .error fuelMsg
  | fuel + 1, f =>
    if f.strict then .ok false
    else match f.value with
      | none => dtypeCanGen fuel f.dtype
      | some v => valueCanGen fuel v f.dtype

/-- `DType.can_generate_invalid_instance` (DType.py lines 253-261): lists
always can; structs can when some member can (early return). -/
def dtypeCanGen : Nat → DTy → Except String Bool
  | 0, _ => .error fuelMsg
  | fuel + 1, dt =>
    if dt.is_list then .ok true
    else match dt.struct_ref with
      | some s => membersAnyCanGen fuel s.members
      | none => .ok false

/-- The member loop of `DType.can_generate_invalid_instance`. -/
def membersAnyCanGen : Nat → List FieldT → Except String Bool
  | 0, _ => .error fuelMsg
  | _ + 1, [] => .ok false
  | fuel + 1, m :: ms => do
    let b ← fieldCanGen fuel m
    if b then .ok true else membersAnyCanGen fuel ms

/-- `Value.can_generate_invalid_instance` across the four variants
(Value.py: ValueSingle line 953, ValueRange line 794, ValueList line 241,
ValueChoice line 510). -/
def valueCanGen : Nat → ValueT → DTy → Except String Bool
  | 0, _, _ => .error fuelMsg
  | _ + 1, .single _, _ => .ok true
  | _ + 1, .range lo hi, dt =>
    .ok (decide ¬(lo = dt.bounds.1 ∧ hi = dt.bounds.2))
  | _ + 1, .vlist _, _ => .ok true
  | fuel + 1, .choice items, dt =>
    match items.head? with
    | none => .error "IndexError: choice contents empty"
    | some (.single _) =>
      if dt.is_float then .ok true
      else .ok (decide ¬(dt.bounds.2 - dt.bounds.1 = Int.ofNat items.length))
    | some (.range _ _) => do
      let rs ← toRanges items
      let combined ← combineValues rs
      match combined with
      | [r] => .ok (decide ¬(r.lo = dt.bounds.1 ∧ r.hi = dt.bounds.2))
      | _ => .ok true
    | some (.vlist _) => allItemsCanGen fuel items dt
    | some (.choice _) =>
      .error "Invalid code path; ValueChoice must be composed of ValueSingle, ValueRange, or ValueList elenents."

/-- The loop of `ValueChoice.can_generate_invalid_instance` for a choice of
lists: no early exit, the flag ends false when any item cannot invalidate. -/
def allItemsCanGen : Nat → List ValueT → DTy → Except String Bool
  | 0, _, _ => .error fuelMsg
  | _ + 1, [], _ => .ok true
  | fuel + 1, x :: xs, dt => do
    let b ← valueCanGen fuel x dt
    let rest ← allItemsCanGen fuel xs dt
    .ok (b && rest)

end

/-! ## Value-level generation -/

/-- The resample loop of `ValueSingle.generate_invalid_value` (Value.py
lines 938-941): while the freshly drawn value equals the literal and fewer
than 10 retries have happened, draw again (each draw may publish a dependee
and consume RNG). -/
def singleRetry (target : PyVal) (dtScalar : DTy) :
    Nat → PyVal → Rng → Dv → Except String (PyVal × Rng × Dv)
  | 0, cur, g, dv => .ok (cur, g, dv)
  | k + 1, cur, g, dv =>
    if pyEq cur target then do
      let (gv, g1, dv1) ← dtypeGenValid dtScalar g dv
      singleRetry target dtScalar k gv.value g1 dv1
    else .ok (cur, g, dv)

mutual

/-- `Value.generate_valid_value` across the four variants (Value.py:
ValueSingle line 922, ValueRange line 744, ValueChoice line 464 with its
`randrange(len) - 1` index, ValueList line 228). -/
def valueGenValid : Nat → ValueT → DTy → Rng → Dv → Except String (GenV × Rng × Dv)
  | 0, _, _, _, _ => .error fuelMsg
  | _ + 1, .single x, dt, g, dv => .ok (⟨.validValue, scalarVal dt x, dt⟩, g, dv)
  | _ + 1, .range lo hi, dt, g, dv =>
    if lo > hi then
      .error "ValuesRange::generate_valid_value() - Aborting: lower bound is greater than upper bound"
    else if dt.is_float then
      let (v, g1) := pyFloatDraw g
      .ok (⟨.validValue, .float v, dt⟩, g1, dv)
    else do
      let (v, g1) ← pyRandrangeInt lo hi g
      .ok (⟨.validValue, .int v, dt⟩, g1, dv)
  | fuel + 1, .choice items, dt, g, dv => do
    let (i, g1) ← pyRandrange items.length g
    -- contents[randrange(len) - 1]: index -1 is the last element
    let idx := (i + (items.length - 1)) % items.length
    valueGenValid fuel (items.getD idx (.single 0)) dt g1 dv
  | fuel + 1, .vlist items, dt, g, dv => do
    let (vals, g1, dv1) ← valueListGenValidVals fuel items dt g dv
    .ok (⟨.validValue, .list vals, dt⟩, g1, dv1)

/-- The element loop of `ValueList.generate_valid_value`: collect the
`.value` of each element's valid generation. -/
def valueListGenValidVals : Nat → List ValueT → DTy → Rng → Dv →
    Except String (List PyVal × Rng × Dv)
  | 0, _, _, _, _ => .error fuelMsg
  | _ + 1, [], _, g, dv => .ok ([], g, dv)
  | fuel + 1, x :: xs, dt, g, dv => do
    let (gv, g1, dv1) ← valueGenValid fuel x dt g dv
    let (vs, g2, dv2) ← valueListGenValidVals fuel xs dt g1 dv1
    .ok (gv.value :: vs, g2, dv2)

/-- `Value.generate_invalid_value` across the four variants.  The returned
`DTy` is the post-call state of the shared dtype object: both
`ValueSingle.generate_invalid_value` (Value.py lines 935-942) and the
append branch of `ValueList.generate_invalid_value` (lines 274-277) set
`dtype.is_list` to `False` around a scalar draw and then unconditionally to
`True`. -/
def valueGenInvalid : Nat → ValueT → DTy → Rng → Dv →
    Except String (GenV × DTy × Rng × Dv)
  | 0, _, _, _, _ => .error fuelMsg
  | _ + 1, .single x, dt, g, dv => do
    let dtScalar := { dt with is_list := false }
    let (gv1, g1, dv1) ← dtypeGenValid dtScalar g dv
    let (v, g2, dv2) ← singleRetry (scalarVal dt x) dtScalar 10 gv1.value g1 dv1
    let dtAfter := { dt with is_list := true }
    let vt := if pyEq v (scalarVal dt x) then InvalidType.validValue else .invalidValue
    .ok (⟨vt, v, dtAfter⟩, dtAfter, g2, dv2)
  | _ + 1, .range lo hi, dt, g, dv => do
    let b := getBounds dt.size dt.signed
    if lo = b.1 then
      .ok (⟨.greaterThanBounds, scalarVal dt (hi + 1), dt⟩, dt, g, dv)
    else if hi = b.2 then
      .ok (⟨.lessThanBounds, scalarVal dt (lo - 1), dt⟩, dt, g, dv)
    else
      let (coin, g1) := pyCoin g
      if coin then .ok (⟨.greaterThanBounds, scalarVal dt (hi + 1), dt⟩, dt, g1, dv)
      else .ok (⟨.lessThanBounds, scalarVal dt (lo - 1), dt⟩, dt, g1, dv)
  | fuel + 1, .choice items, dt, g, dv =>
    match items.head? with
    | none => .error "IndexError: choice contents empty"
    | some (.single _) => do
      let xs ← toSingles items
      let (v, g1) ← singleNotInSet xs dt g
      .ok (⟨.invalidValue, v, dt⟩, dt, g1, dv)
    | some (.range _ _) => do
      let rs ← toRanges items
      let (v, g1) ← rangeNotInSet rs dt g
      .ok (⟨.invalidValue, v, dt⟩, dt, g1, dv)
    | some (.vlist _) => do
      let (i, g1) ← pyRandint 0 (Int.ofNat (items.length - 1)) g
      let (inner, dt1, g2, dv1) ←
        valueGenInvalid fuel (items.getD i.toNat (.single 0)) dt g1 dv
      .ok (⟨.invalidValue, .wrapped inner.value_type inner.value, dt1⟩, dt1, g2, dv1)
    | some (.choice _) => .error "Cannot have nested ValueChoice definitions"
  | fuel + 1, .vlist items, dt, g, dv => do
    -- ATTEMPT 1: invalidate one invalidatable element
    let invalidable ← collectInvalidable fuel items dt
    if invalidable.length > 0 then do
      let (i, g1) ← pyRandint 0 (Int.ofNat (invalidable.length - 1)) g
      valueGenInvalid fuel (invalidable.getD i.toNat (.single 0)) dt g1 dv
    else do
      -- ATTEMPT 2: perturb the length
      let (vals, g1, dv1) ← valueListGenValidVals fuel items dt g dv
      if items.length < 1 then do
        -- `or` short-circuits: no coin draw
        let (gv2, g2, dv2) ← dtypeGenValid { dt with is_list := false } g1 dv1
        let dtAfter := { dt with is_list := true }
        .ok (⟨.highListLength, .list (vals ++ [gv2.value]), dtAfter⟩, dtAfter, g2, dv2)
      else
        let (coin, g2) := pyCoin g1
        if coin then do
          let (gv2, g3, dv3) ← dtypeGenValid { dt with is_list := false } g2 dv1
          let dtAfter := { dt with is_list := true }
          .ok (⟨.highListLength, .list (vals ++ [gv2.value]), dtAfter⟩, dtAfter, g3, dv3)
        else
          .ok (⟨.lowListLength, .list vals.dropLast, dt⟩, dt, g2, dv1)

/-- The ATTEMPT 1 filter of `ValueList.generate_invalid_value` (Value.py
lines 252-255): all elements are tested, errors abort. -/
def collectInvalidable : Nat → List ValueT → DTy → Except String (List ValueT)
  | 0, _, _ => .error fuelMsg
  | _ + 1, [], _ => .ok []
  | fuel + 1, x :: xs, dt => do
    let b ← valueCanGen fuel x dt
    let rest ← collectInvalidable fuel xs dt
    .ok (if b then x :: rest else rest)

end

/-! ## Field-level generation (`FieldDef` / `ValueDef`) -/

/-- `FieldDef.generate_valid_value` (FieldDef.py lines 125-133): through
`ValueDef.generate_valid_value` (which publishes a dependee value,
ValueDef.py lines 91-92) when a value is declared, else directly through
the dtype (which publishes integer scalars itself). -/
def fieldGenValid (fuel : Nat) (f : FieldT) (g : Rng) (dv : Dv) :
    Except String (GenV × Rng × Dv) :=
  match f.value with
  | some v => do
    let (gv, g1, dv1) ← valueGenValid fuel v f.dtype g dv
    .ok (gv, g1, publishDependee f.dtype.dependee gv.value dv1)
  | none => dtypeGenValid f.dtype g dv

/-- `FieldDef.generate_invalid_value` (FieldDef.py lines 135-141): through
`ValueDef.generate_invalid_value` (publishing the dependee, ValueDef.py
lines 118-119) when a value is declared; else a dtype-level length fault
when possible, else a plain valid value.  The post-call dtype state is
returned alongside. -/
def fieldGenInvalid (fuel : Nat) (f : FieldT) (g : Rng) (dv : Dv) :
    Except String (GenV × DTy × Rng × Dv) :=
  match f.value with
  | some v => do
    let (gv, dt1, g1, dv1) ← valueGenInvalid fuel v f.dtype g dv
    .ok (gv, dt1, g1, publishDependee f.dtype.dependee gv.value dv1)
  | none => do
    let b ← dtypeCanGen fuel f.dtype
    if b then do
      let (gv, g1, dv1) ← dtypeGenInvalid f.dtype g dv
      .ok (gv, f.dtype, g1, dv1)
    else do
      let (gv, g1, dv1) ← dtypeGenValid f.dtype g dv
      .ok (gv, f.dtype, g1, dv1)

/-! ## Struct-level valid generation (`Struct.generate_valid_values`,
DType.py lines 41-70) -/

/-- Member-specific list length for struct-typed struct members (DType.py
lines 46-61): fixed count, or dependency lookup with `int()` conversion. -/
def memberListLen (dt : DTy) (dv : Dv) : Except String Int :=
  if dt.is_list ∧ ¬dt.has_type_dependency then .ok (Int.ofNat dt.list_count)
  else if dt.has_type_dependency then
    match lookupDependency dt.dependency dv with
    | none => .error "Dependency is not in list of dependency_value keys"
    | some pv => pyToInt pv
  else .ok 1

mutual

/-- `Struct.generate_valid_values`: flatten the members into generated
values, expanding struct-typed members `list_len` times. -/
def structGenValidValues : Nat → StructT → Rng → Dv →
    Except String (List GenV × Rng × Dv)
  | 0, _, _, _ => .error fuelMsg
  | fuel + 1, s, g, dv => structMembersVals fuel s.members g dv

/-- The member loop of `Struct.generate_valid_values`. -/
def structMembersVals : Nat → List FieldT → Rng → Dv →
    Except String (List GenV × Rng × Dv)
  | 0, _, _, _ => .error fuelMsg
  | _ + 1, [], g, dv => .ok ([], g, dv)
  | fuel + 1, m :: ms, g, dv => do
    if m.dtype.is_struct then do
      let ll ← memberListLen m.dtype dv
      match m.dtype.struct_ref with
      | some s => do
        let (vs, g1, dv1) ← structRepeatVals fuel ll.toNat s g dv
        let (rest, g2, dv2) ← structMembersVals fuel ms g1 dv1
        .ok (vs ++ rest, g2, dv2)
      | none => .error "struct_ref missing"
    else do
      let (gv, g1, dv1) ← fieldGenValid fuel m g dv
      let (rest, g2, dv2) ← structMembersVals fuel ms g1 dv1
      .ok (gv :: rest, g2, dv2)

/-- `for _ in range(list_len): struct_ref.generate_valid_values()`. -/
def structRepeatVals : Nat → Nat → StructT → Rng → Dv →
    Except String (List GenV × Rng × Dv)
  | 0, _, _, _, _ => .error fuelMsg
  | _ + 1, 0, _, g, dv => .ok ([], g, dv)
  | fuel + 1, n + 1, s, g, dv => do
    let (vs, g1, dv1) ← structGenValidValues fuel s g dv
    let (rest, g2, dv2) ← structRepeatVals fuel n s g1 dv1
    .ok (vs ++ rest, g2, dv2)

end

/-! ## PacketGenerator (`fuzz_msg_type` and its local helpers) -/

/-- The `invalid_info` slot of `fuzz_msg_type`: a string (initially `''`,
later `'name - CLASSIFICATION'`) or, from the struct list branch, a raw
`INVALID_TYPE` member. -/
inductive InvalidInfo where
  | str (s : String)
  | itype (t : InvalidType)
deriving DecidableEq, Repr

/-- The observable outcome of `fuzz_msg_type` before serialization: the
flattened generated values, the returned validity flag and the
`invalid_info`. -/
structure FuzzResult where
  values : List GenV
  is_valid : Bool
  invalid_info : InvalidInfo

/-- List length resolution of `generate_valid_struct` (PacketGenerator.py
lines 93-110).  `outerCount` is `field.dtype.list_count` for the `field`
variable captured from the enclosing `fuzz_msg_type` loop -- the source
reads the OUTER field's count here, not `struct_field`'s. -/
def pgStructListLen (outerCount : Nat) (sf : FieldT) (dv : Dv) : Except String Int :=
  if sf.dtype.is_list then
    if ¬sf.dtype.has_type_dependency then .ok (Int.ofNat outerCount)
    else
      match lookupDependency sf.dtype.dependency dv with
      | none => .error "dependency is not in list of dependency_value keys"
      | some pv => pyToInt pv
  else .ok 1

/-- `generate_valid_struct` (PacketGenerator.py lines 90-118). -/
def pgValidStruct : Nat → Nat → FieldT → Rng → Dv →
    Except String (List GenV × Rng × Dv)
  | 0, _, _, _, _ => .error fuelMsg
  | fuel + 1, outerCount, sf, g, dv => do
    let ll ← pgStructListLen outerCount sf dv
    match sf.dtype.struct_ref with
    | none => .error "AttributeError: struct_ref is None"
    | some s => structRepeatVals fuel ll.toNat s g dv

/-- `for i in range(list_len)` of the struct list branch of
`generate_invalid_struct`: each iteration generates one valid struct
instance with `struct_field.dtype.is_list` forced to `False`. -/
def pgValidStructNTimes (fuel : Nat) (outerCount : Nat) (sf : FieldT) :
    Nat → Rng → Dv → Except String (List GenV × Rng × Dv)
  | 0, g, dv => .ok ([], g, dv)
  | n + 1, g, dv => do
    let (vs, g1, dv1) ← pgValidStruct fuel outerCount sf g dv
    let (rest, g2, dv2) ← pgValidStructNTimes fuel outerCount sf n g1 dv1
    .ok (vs ++ rest, g2, dv2)

mutual

/-- `generate_invalid_struct` (PacketGenerator.py lines 125-204).  For a
list-typed struct field the fault is one extra repetition
(`HIGH_LIST_LENGTH` as raw enum info); otherwise one uniformly chosen
invalidatable member is corrupted (a `NameError` is raised when no member
is corruptable, line 173) and all others are generated valid. -/
def pgInvalidStruct : Nat → Nat → FieldT → Rng → Dv →
    Except String (InvalidInfo × List GenV × Rng × Dv)
  | 0, _, _, _, _ => .error fuelMsg
  | fuel + 1, outerCount, sf, g, dv => do
    match sf.dtype.struct_ref with
    | none => .error "AttributeError: struct_ref is None"
    | some sref =>
      if sf.dtype.is_list then do
        let ll ← pgStructListLen outerCount sf dv
        let count := (ll + 1).toNat
        let sfScalar := { sf with dtype := { sf.dtype with is_list := false } }
        let (vals, g1, dv1) ← pgValidStructNTimes fuel outerCount sfScalar count g dv
        let info := if count > 0 then InvalidInfo.itype .highListLength
                    else InvalidInfo.itype .validValue
        .ok (info, vals, g1, dv1)
      else do
        let idxs ← pgCorruptableIdx fuel sref.members 0
        match idxs with
        | [] => .error "NameError: corrupted_member referenced before assignment"
        | _ => do
          let (r, g1) ← pyRandrange idxs.length g
          let idx := idxs.getD r 0
          let ((vals, info), g2, dv2) ←
            pgInvalidMembers fuel outerCount sref.members 0 idx (.itype .validValue) g1 dv
          .ok (info, vals, g2, dv2)

/-- The corruptable-member scan of `generate_invalid_struct` (lines
157-165): indices of members that can generate an invalid instance. -/
def pgCorruptableIdx : Nat → List FieldT → Nat → Except String (List Nat)
  | 0, _, _ => .error fuelMsg
  | _ + 1, [], _ => .ok []
  | fuel + 1, m :: ms, i => do
    let b ← fieldCanGen fuel m
    let rest ← pgCorruptableIdx fuel ms (i + 1)
    .ok (if b then i :: rest else rest)

/-- The member loop of `generate_invalid_struct` (lines 174-201): the
member at `idx` is corrupted (recursively for struct members), the rest
are generated valid; `invalid_info` is set at the corruption point. -/
def pgInvalidMembers : Nat → Nat → List FieldT → Nat → Nat → InvalidInfo →
    Rng → Dv → Except String ((List GenV × InvalidInfo) × Rng × Dv)
  | 0, _, _, _, _, _, _, _ => .error fuelMsg
  | _ + 1, _, [], _, _, info, g, dv => .ok (([], info), g, dv)
  | fuel + 1, outerCount, m :: ms, i, idx, info, g, dv => do
    if m.dtype.is_struct then
      if i = idx then do
        let (info2, vals, g1, dv1) ← pgInvalidStruct fuel outerCount m g dv
        let ((rest, infoF), g2, dv2) ←
          pgInvalidMembers fuel outerCount ms (i + 1) idx info2 g1 dv1
        .ok ((vals ++ rest, infoF), g2, dv2)
      else do
        let (vals, g1, dv1) ← pgValidStruct fuel outerCount m g dv
        let ((rest, infoF), g2, dv2) ←
          pgInvalidMembers fuel outerCount ms (i + 1) idx info g1 dv1
        .ok ((vals ++ rest, infoF), g2, dv2)
    else
      if i = idx then do
        let (gv, _dt, g1, dv1) ← fieldGenInvalid fuel m g dv
        let info2 := InvalidInfo.str (m.name ++ " - " ++ gv.value_type.pyName)
        let ((rest, infoF), g2, dv2) ←
          pgInvalidMembers fuel outerCount ms (i + 1) idx info2 g1 dv1
        .ok ((gv :: rest, infoF), g2, dv2)
      else do
        let (gv, g1, dv1) ← fieldGenValid fuel m g dv
        let ((rest, infoF), g2, dv2) ←
          pgInvalidMembers fuel outerCount ms (i + 1) idx info g1 dv1
        .ok ((gv :: rest, infoF), g2, dv2)

end

/-- The valid-mode field loop of `fuzz_msg_type` (PacketGenerator.py lines
214-224): every field is generated valid, struct fields expanding via
`generate_valid_struct` (whose length capture reads the loop field itself
at top level). -/
def fuzzValidLoop : Nat → List FieldT → Rng → Dv →
    Except String (List GenV × Rng × Dv)
  | 0, _, _, _ => .error fuelMsg
  | _ + 1, [], g, dv => .ok ([], g, dv)
  | fuel + 1, f :: fs, g, dv => do
    if f.dtype.is_struct then do
      let (vals, g1, dv1) ← pgValidStruct fuel f.dtype.list_count f g dv
      let (rest, g2, dv2) ← fuzzValidLoop fuel fs g1 dv1
      .ok (vals ++ rest, g2, dv2)
    else do
      let (gv, g1, dv1) ← fieldGenValid fuel f g dv
      let (rest, g2, dv2) ← fuzzValidLoop fuel fs g1 dv1
      .ok (gv :: rest, g2, dv2)

/-- The invalid-mode field loop of `fuzz_msg_type` (lines 243-267): the
field at `idx` (`none` models `corrupted_field_index = -1`) is corrupted;
every other field is generated valid. -/
def fuzzInvalidLoop : Nat → List FieldT → Nat → Option Nat → InvalidInfo →
    Rng → Dv → Except String ((List GenV × InvalidInfo) × Rng × Dv)
  | 0, _, _, _, _, _, _ => .error fuelMsg
  | _ + 1, [], _, _, info, g, dv => .ok (([], info), g, dv)
  | fuel + 1, f :: fs, i, idx, info, g, dv => do
    if f.dtype.is_struct then
      if idx = some i then do
        let (info2, vals, g1, dv1) ← pgInvalidStruct fuel f.dtype.list_count f g dv
        let ((rest, infoF), g2, dv2) ← fuzzInvalidLoop fuel fs (i + 1) idx info2 g1 dv1
        .ok ((vals ++ rest, infoF), g2, dv2)
      else do
        let (vals, g1, dv1) ← pgValidStruct fuel f.dtype.list_count f g dv
        let ((rest, infoF), g2, dv2) ← fuzzInvalidLoop fuel fs (i + 1) idx info g1 dv1
        .ok ((vals ++ rest, infoF), g2, dv2)
    else
      if idx = some i then do
        let (gv, _dt, g1, dv1) ← fieldGenInvalid fuel f g dv
        let info2 := InvalidInfo.str (f.name ++ " - " ++ gv.value_type.pyName)
        let ((rest, infoF), g2, dv2) ← fuzzInvalidLoop fuel fs (i + 1) idx info2 g1 dv1
        .ok ((gv :: rest, infoF), g2, dv2)
      else do
        let (gv, g1, dv1) ← fieldGenValid fuel f g dv
        let ((rest, infoF), g2, dv2) ← fuzzInvalidLoop fuel fs (i + 1) idx info g1 dv1
        .ok ((gv :: rest, infoF), g2, dv2)

/-- The invalidatable-field scan of `fuzz_msg_type` (lines 226-231):
indices of fields reporting `can_generate_invalid_instance()`. -/
def collectInvalidIdx (fuel : Nat) : List FieldT → Nat → Except String (List Nat)
  | [], _ => .ok []
  | f :: fs, i => do
    let b ← fieldCanGen fuel f
    let rest ← collectInvalidIdx fuel fs (i + 1)
    .ok (if b then i :: rest else rest)

/-- `PacketGenerator.fuzz_msg_type` (PacketGenerator.py lines 206-270) up
to (but not including) serialization: the generated value list, the
returned `is_valid` flag and the `invalid_info`.  In the source the
returned tuple is `(serialize(values).0, serialize(values).1, is_valid,
invalid_info)`; serialization is modelled separately by `serialize`. -/
def fuzzMsgType : Nat → MessageTypeT → Bool → Rng → Dv →
    Except String (FuzzResult × Rng × Dv)
  | 0, _, _, _, _ => .error fuelMsg
  | fuel + 1, msg, valid, g, dv =>
    if valid then do
      let (vals, g1, dv1) ← fuzzValidLoop fuel msg.fields g dv
      .ok (⟨vals, true, .str ""⟩, g1, dv1)
    else do
      let idxs ← collectInvalidIdx fuel msg.fields 0
      match idxs with
      | [] => do
        -- degrade to valid mode: corrupted_field_index = -1, is_valid = True
        let ((vals, info), g1, dv1) ← fuzzInvalidLoop fuel msg.fields 0 none (.str "") g dv
        .ok (⟨vals, true, info⟩, g1, dv1)
      | _ => do
        let (r, g1) ← pyRandrange idxs.length g
        let idx := idxs.getD r 0
        let ((vals, info), g2, dv2) ← fuzzInvalidLoop fuel msg.fields 0 (some idx) (.str "") g1 dv
        .ok (⟨vals, false, info⟩, g2, dv2)

/-! ## Serialization (`gen_util.serialize`, lines 317-387)

The `struct` library packing is embedded exactly for integer formats:
`create_struct_format` chooses a format character whose width `W` is the
smallest of 8/16/32/64 bits holding the declared size (plus the bool format
`?` for 1-bit types); packing checks the value against the format's range
and raises `struct.error` otherwise; `attempt_reverse_bytes` followed by an
unpack with the same format is a `W`-bit byte swap of the two's-complement
pattern.  Floats pack through `float2int`, modelled on opaque payloads. -/

/-- `DType.get_size_in_bits`: the declared width for native types, `-1`
otherwise. -/
def getSizeInBits (dt : DTy) : Int :=
  if dt.is_int ∨ dt.is_float then Int.ofNat dt.size else -1

/-- Format data from `gen_util.create_struct_format`: bool format flag,
format width in bits, and the pad (format width minus the byte-aligned
declared size). -/
structure FmtInfo where
  isBool : Bool
  signedFmt : Bool
  w : Nat
  pad : Nat

/-- `get_next_octet_offset`: round up to a multiple of 8. -/
def nextOctetOffset (sz : Nat) : Nat :=
  if sz % 8 = 0 then sz else sz + (8 - sz % 8)

/-- `gen_util.create_struct_format` (lines 421-460) for native dtypes. -/
def createStructFormat (dt : DTy) : FmtInfo :=
  if dt.is_int then
    if dt.size = 1 then ⟨true, dt.signed, 8, 8 - nextOctetOffset dt.size⟩
    else if dt.size ≤ 8 then ⟨false, dt.signed, 8, 8 - nextOctetOffset dt.size⟩
    else if dt.size ≤ 16 then ⟨false, dt.signed, 16, 16 - nextOctetOffset dt.size⟩
    else if dt.size ≤ 32 then ⟨false, dt.signed, 32, 32 - nextOctetOffset dt.size⟩
    else ⟨false, dt.signed, 64, 64 - nextOctetOffset dt.size⟩
  else ⟨false, false, 32, 32 - nextOctetOffset dt.size⟩

/-- `gen_util.float2int`: the IEEE-754 bit pattern of a float as an
unsigned 32-bit integer; on opaque payloads, the payload reduced mod
`2^32`. -/
def float2int (p : Int) : Int := p % (2 ^ 32)

/-- Byte reversal of the low `k` bytes (the effect of
`attempt_reverse_bytes` on a packed buffer of `k` bytes). -/
def bswapBytes : Nat → Nat → Nat
  | 0, _ => 0
  | k + 1, u => (u % 256) * 256 ^ k + bswapBytes k (u / 256)

/-- Reading a `w`-bit pattern back through a signed or unsigned format. -/
def fromTwos (signedFmt : Bool) (w : Nat) (u : Nat) : Int :=
  if signedFmt ∧ 2 ^ (w - 1) ≤ u then Int.ofNat u - 2 ^ w else Int.ofNat u

/-- `struct.pack` range admissibility for a format. -/
def packRangeOk (fi : FmtInfo) (v : Int) : Bool :=
  fi.isBool || (if fi.signedFmt then decide (-(2 ^ (fi.w - 1) : Int) ≤ v ∧ v < 2 ^ (fi.w - 1))
                else decide (0 ≤ v ∧ v < (2 ^ fi.w : Int)))

/-- Pack-then-unpack of one integer through a format: the identity (via
truthiness for the bool format), except for the byte-swapping paths which
are applied by the callers. -/
def packUnpackId (fi : FmtInfo) (v : Int) : Except String Int :=
  if packRangeOk fi v then
    .ok (if fi.isBool then (if v = 0 then 0 else 1) else v)
  else .error "struct.error: value out of range for format"

/-- Pack-then-reverse-then-unpack of one integer: a `W`-bit byte swap of
the two's-complement pattern, read back with the format's signedness. -/
def packSwapUnpack (fi : FmtInfo) (v : Int) : Except String Int :=
  if packRangeOk fi v then
    .ok (fromTwos fi.signedFmt fi.w (bswapBytes (fi.w / 8) (v % (2 ^ fi.w)).toNat))
  else .error "struct.error: value out of range for format"

/-- The integer list loop of `serialize` (gen_util.py lines 356-372): each
element is packed at the element format's width and byte-swapped whenever
`dtype_size > 8` and a multiple of 8 -- REGARDLESS of declared endianness
(the scalar branch applies the swap only for little-endian dtypes). -/
def serializeIntList (fi : FmtInfo) (sz : Nat) :
    List PyVal → Int → Int → Except String (Int × Int)
  | [], acc, vsize => .ok (acc, vsize)
  | .int v :: rest, acc, vsize => do
    let elem ← if sz > 8 ∧ sz % 8 = 0 then packSwapUnpack fi v else packUnpackId fi v
    serializeIntList fi sz rest (pyOr (pyShl acc sz) elem) (vsize + Int.ofNat sz)
  | _ :: _, _, _ => .error "struct.error: required argument is not an integer"

/-- The float list loop of `serialize` (lines 332-337). -/
def serializeFloatList (sz : Nat) :
    List PyVal → Int → Int → Except String (Int × Int)
  | [], acc, vsize => .ok (acc, vsize)
  | .float p :: rest, acc, vsize =>
    serializeFloatList sz rest (pyOr (pyShl acc sz) (float2int p)) (vsize + Int.ofNat sz)
  | .int n :: rest, acc, vsize =>
    -- struct.pack('>f', int) converts; on opaque payloads the int is kept
    serializeFloatList sz rest (pyOr (pyShl acc sz) (float2int n)) (vsize + Int.ofNat sz)
  | _ :: _, _, _ => .error "struct.error: required argument is not a float"

/-- Per-value encoding of `serialize` (lines 322-379): the pair
`(val_serialized, val_size)` after the sign fix and the little-endian pad
shift. -/
def encodeVal (gv : GenV) : Except String (Int × Int) := do
  let dtypeSize := getSizeInBits gv.dtype
  let fi := createStructFormat gv.dtype
  let (vs, vsize) ←
    if gv.dtype.is_float then
      match gv.value with
      | .float p => .ok (float2int p, dtypeSize)
      | .list xs => serializeFloatList gv.dtype.size xs 0 0
      | _ => .ok (0, dtypeSize)
    else if gv.dtype.is_int then
      match gv.value with
      | .int n => do
        let u ←
          if ¬gv.dtype.is_big_endian ∧ gv.dtype.size > 8 ∧ gv.dtype.size % 8 = 0 then
            packSwapUnpack fi n
          else packUnpackId fi n
        .ok (u, dtypeSize)
      | .list xs =>
        -- signed list elements are forced through the '<i' format
        let fi2 := if gv.dtype.signed then FmtInfo.mk false true 32 0 else fi
        serializeIntList fi2 gv.dtype.size xs 0 0
      | _ => .error "Integer DTypes must resolve to either a int or list type for their values!"
    else
      .ok (0, dtypeSize)
  let vs1 := if vs < 0 then vs + pyShl 1 vsize.toNat else vs
  let vs2 := if ¬gv.dtype.is_big_endian then pyShr vs1 fi.pad else vs1
  .ok (vs2, vsize)

/-- The accumulation loop of `serialize` (lines 322-382): values are
shifted in MSB-first; a negative `val_size` (struct dtypes) raises. -/
def serializeGo : List GenV → Int → Int → Except String (Int × Int)
  | [], serial, size => .ok (pyShl serial (size % 8).toNat, size)
  | v :: rest, serial, size => do
    let (vs, vsize) ← encodeVal v
    if vsize < 0 then .error "ValueError: negative shift count"
    else serializeGo rest (pyOr (pyShl serial vsize.toNat) vs) (size + vsize)

/-- `gen_util.serialize` (lines 317-387): accumulate all values MSB-first,
then shift the result left by `size % 8`. -/
def serialize (vals : List GenV) : Except String (Int × Int) :=
  serializeGo vals 0 0

/-- The same accumulation WITHOUT the final `serial << (size % 8)` shift:
the raw MSB-first accumulation of the values. -/
def serializeNoPad : List GenV → Int → Int → Except String (Int × Int)
  | [], serial, size => .ok (serial, size)
  | v :: rest, serial, size => do
    let (vs, vsize) ← encodeVal v
    if vsize < 0 then .error "ValueError: negative shift count"
    else serializeNoPad rest (pyOr (pyShl serial vsize.toNat) vs) (size + vsize)

/-- A big-endian unsigned native integer dtype of the given width. -/
def mkUDty (size : Nat) : DTy :=
  { signed := false, is_int := true, is_float := false, is_list := false,
    list_count := 0, has_type_dependency := false, dependency := "",
    dependee := "", is_big_endian := true, size := size, struct_ref := none }

example :
    serialize [⟨.validValue, .list [.int 1, .int 2, .int 3],
               { mkUDty 16 with is_list := true, list_count := 3 }⟩] =
      .ok (0x010002000300, 48) := rfl

example :
    serialize [⟨.validValue, .int 7, mkUDty 3⟩, ⟨.validValue, .int 7, mkUDty 3⟩] =
      .ok (4032, 6) := rfl

example :
    serialize [⟨.validValue, .int 1, { mkUDty 16 with is_big_endian := false }⟩] =
      .ok (256, 16) := rfl

/-! ## Claim-specific concrete data -/

/-- Number of generated values carrying a non-valid classification. -/
def countNonValid (l : List GenV) : Nat :=
  (l.filter (fun gv => gv.value_type ≠ .validValue)).length

/-- A 1-bit unsigned dtype (bounds 0..1). -/
def dtU1 : DTy := mkUDty 1

/-- A U16 big-endian fixed list-of-3 dtype. -/
def dtU16L3 : DTy := { mkUDty 16 with is_list := true, list_count := 3 }

/-- A U8 fixed list-of-3 dtype. -/
def dtU8L3 : DTy := { mkUDty 8 with is_list := true, list_count := 3 }

/-- A U8 fixed list-of-1 dtype. -/
def dtU8L1 : DTy := { mkUDty 8 with is_list := true, list_count := 1 }

/-- C3 (code_bug): serializing a `List` field of 3 big-endian `U16`
elements with values `[1,2,3]` does NOT produce the claimed buffer
`00 01 00 02 00 03` (`0x000100020003`): the integer list branch of
`serialize` byte-swaps every multi-byte element regardless of declared
endianness (the `is_big_endian is False` guard of the scalar branch is
missing at gen_util.py line 367), so the 6-byte buffer is
`01 00 02 00 03 00` (`0x010002000300`). -/
theorem c3_list_serialization_byteswapped :
    serialize [⟨.validValue, .list [.int 1, .int 2, .int 3], dtU16L3⟩] =
      .ok (0x010002000300, 48) ∧
    (0x010002000300 : Int) ≠ 0x000100020003 := ⟨rfl, by decide⟩

/-- C5 (code_bug): for the full-domain choice `0|1` over the 1-bit
unsigned type (inclusive domain `{0,1}`, size `hi - lo + 1 = 2`),
`ValueChoice.can_generate_invalid_instance` returns `True`: the source
compares the alternative count against `bounds[1] - bounds[0]` (= 1)
instead of the domain size `hi - lo + 1` (= 2) (Value.py line 518), so the
claimed equivalence fails at this input. -/
theorem c5_full_domain_choice_reports_invalidatable :
    valueCanGen 3 (.choice [.single 0, .single 1]) dtU1 = .ok true ∧
    dtU1.bounds.2 - dtU1.bounds.1 + 1 = 2 := ⟨rfl, by decide⟩

/-- C7 (code_bug): length faults do not always change the length by one.
First conjunct: `DType.generate_invalid_value` on a U8 list of 3, with the
RNG choosing the drop branch, returns a list of length 1 -- `[:-1]` is
applied twice (DType.py lines 288-290), two fewer than the valid length 3,
while the classification still reads `LOW_LIST_LENGTH` ("one too few").
Second conjunct: `ValueList.generate_invalid_value` guards the forced
append with `len < 1` instead of `<= 1` (Value.py line 270), so a
one-element list (whose element cannot be invalidated) can take the drop
branch and come back empty. -/
theorem c7_length_faults_not_one_off :
    (dtypeGenInvalid dtU8L3 [5, 6, 7, 1] [] =
      .ok (⟨.lowListLength, .list [.int 5], dtU8L3⟩, [], [])) ∧
    (valueGenInvalid 5 (.vlist [.range 0 255]) dtU8L1 [3, 1] [] =
      .ok (⟨.lowListLength, .list [], dtU8L1⟩, dtU8L1, [], [])) := ⟨rfl, rfl⟩

/-- C9 (code_bug): `ValueSingle.generate_invalid_value` mutates the parsed
`DType`: it sets `dtype.is_list = False` around its scalar draw and then
unconditionally `dtype.is_list = True` (Value.py lines 935, 942).  On a
scalar dtype (`is_list = False` before the call) the dtype comes back with
`is_list = True`, so the attribute does not keep its value across the
generation call. -/
theorem c9_single_invalid_mutates_dtype :
    (mkUDty 8).is_list = false ∧
    valueGenInvalid 5 (.single 0) (mkUDty 8) [1] [] =
      .ok (⟨.invalidValue, .int 1, { mkUDty 8 with is_list := true }⟩,
           { mkUDty 8 with is_list := true }, [], []) ∧
    ({ mkUDty 8 with is_list := true } : DTy).is_list = true := ⟨rfl, rfl, rfl⟩

/-! ## C2: serializer padding -/

/-- The padded accumulation is the raw accumulation shifted left by
`size % 8` bits. -/
theorem serializeGo_eq_noPad (vals : List GenV) : ∀ serial size,
    serializeGo vals serial size =
      (serializeNoPad vals serial size).map
        (fun p => (pyShl p.1 (p.2 % 8).toNat, p.2)) := by
  induction vals with
  | nil => intro serial size; rfl
  | cons v rest ih =>
    intro serial size
    simp only [serializeGo, serializeNoPad]
    cases h : encodeVal v with
    | error e => simp [Except.map, bind, Except.bind]
    | ok p =>
      obtain ⟨vs, vsize⟩ := p
      simp only [bind, Except.bind]
      by_cases hneg : vsize < 0
      · simp [hneg, Except.map]
      · simp [hneg, ih]

/-- C2 (corrected, counterexample): two 3-bit unsigned values sum to
`total_bits = 6`; the claim demands padding up to the next multiple of 8
(a 1-byte buffer, so an integer below `2^8`), but `serialize` shifts left
by `6 % 8 = 6` bits and returns 4032 `≥ 2^8`. -/
theorem c2_counterexample :
    serialize [⟨.validValue, .int 7, mkUDty 3⟩, ⟨.validValue, .int 7, mkUDty 3⟩] =
      .ok (4032, 6) ∧
    ¬((4032 : Int) < 2 ^ (8 * ((6 + 7) / 8))) := ⟨rfl, by decide⟩

/-- C2 (amended): `serialize` accumulates the values MSB-first and shifts
the result left by `total_bits % 8` bits (not by the
`(8 - total_bits % 8) % 8` bits needed to pad to the next multiple of 8);
given the accumulated integer fits its `total_bits`, the buffer still
occupies `ceil(total_bits/8)` bytes whenever `total_bits % 8 ≤ 4` (since
`acc * 2 ^ r < 2 ^ (total_bits + r) ≤ 2 ^ (8 * ceil(total_bits/8))` for
`r ≤ 4`), while for larger residues it can overflow that byte count, as
`c2_counterexample` shows at `total_bits = 6`. -/
theorem c2_amended (vals : List GenV) (s n : Int)
    (h : serialize vals = .ok (s, n)) :
    (∃ acc, serializeNoPad vals 0 0 = .ok (acc, n) ∧
      s = acc * 2 ^ (n % 8).toNat) ∧
    (∀ acc, serializeNoPad vals 0 0 = .ok (acc, n) →
      n % 8 ≤ 4 → 0 ≤ acc → acc < 2 ^ n.toNat →
      s < 2 ^ (8 * ((n.toNat + 7) / 8))) := by
  have hrel := serializeGo_eq_noPad vals 0 0
  rw [serialize, hrel] at h
  cases hnp : serializeNoPad vals 0 0 with
  | error e => rw [hnp] at h; simp [Except.map] at h
  | ok p =>
    obtain ⟨acc, n'⟩ := p
    rw [hnp] at h
    simp only [Except.map, Except.ok.injEq, Prod.mk.injEq] at h
    obtain ⟨hs, hn⟩ := h
    constructor
    · exact ⟨acc, by rw [hn], by rw [← hs, ← hn, pyShl]⟩
    · intro acc2 hacc2 hmod hnonneg hlt
      simp only [Except.ok.injEq, Prod.mk.injEq] at hacc2
      obtain ⟨hacc, -⟩ := hacc2
      rw [← hacc] at hlt hnonneg
      rw [← hs, pyShl, hn]
      by_cases hn0 : 0 ≤ n
      · have hrr : (n % 8).toNat = n.toNat % 8 := by omega
        calc acc * 2 ^ (n % 8).toNat
            < 2 ^ n.toNat * 2 ^ (n % 8).toNat := by
              apply mul_lt_mul_of_pos_right hlt
              positivity
          _ = 2 ^ (n.toNat + (n % 8).toNat) := by rw [← pow_add]
          _ ≤ 2 ^ (8 * ((n.toNat + 7) / 8)) := by
              apply pow_le_pow_right₀ (by norm_num)
              omega
      · push_neg at hn0
        have ht : n.toNat = 0 := by omega
        rw [ht] at hlt
        simp only [pow_zero] at hlt
        have hz : acc = 0 := by omega
        rw [hz, zero_mul]
        positivity

/-- C2 (witness): the amended statement at a single 3-bit value 7
(`total_bits = 3`, residue `3 ≤ 4`): the raw accumulation is 7, the
shifted result is `7 * 2 ^ 3 = 56`, and the second conjunct's hypotheses
all hold concretely (`3 % 8 ≤ 4`, `0 ≤ 7 < 2 ^ 3`), giving `56 < 2 ^ 8` --
the buffer fits its single byte. -/
theorem c2_amended_witness :
    ((∃ acc, serializeNoPad [⟨.validValue, .int 7, mkUDty 3⟩] 0 0 =
        .ok (acc, 3) ∧ (56 : Int) = acc * 2 ^ ((3 : Int) % 8).toNat) ∧
     (∀ acc, serializeNoPad [⟨.validValue, .int 7, mkUDty 3⟩] 0 0 =
        .ok (acc, 3) →
      (3 : Int) % 8 ≤ 4 → 0 ≤ acc → acc < 2 ^ (3 : Int).toNat →
      (56 : Int) < 2 ^ (8 * (((3 : Int).toNat + 7) / 8)))) ∧
    serializeNoPad [⟨.validValue, .int 7, mkUDty 3⟩] 0 0 = .ok (7, 3) ∧
    (3 : Int) % 8 ≤ 4 ∧ (0 : Int) ≤ 7 ∧ (7 : Int) < 2 ^ (3 : Int).toNat :=
  ⟨c2_amended _ 56 3 rfl, rfl, by decide, by decide, by decide⟩

/-! ## C4: range sampling excludes the upper bound -/

/-- C4 (corrected, counterexample): for the integer range `(0,2)` the
value 2 -- the inclusive upper bound `b` -- is NOT a possible outcome of
`ValueRange.generate_valid_value` for any RNG state: the source samples
`random.randrange(min, max)` (Value.py line 759), which excludes `max`. -/
theorem c4_counterexample :
    ¬ ∃ (g : Rng) (r : GenV × Rng × Dv),
      valueGenValid 5 (.range 0 2) (mkUDty 8) g [] = .ok r ∧
      r.1.value = .int 2 := by
  rintro ⟨g, r, h, hv⟩
  simp only [valueGenValid, mkUDty, pyRandrangeInt, drawNat] at h
  norm_num at h
  simp only [bind, Except.bind, Except.ok.injEq] at h
  rw [← h] at hv
  simp only [PyVal.int.injEq] at hv
  omega

/-- C4 (amended): for an integer-typed `ValueRange` with bounds `(a,b)`,
`generate_valid_value` samples uniformly from the HALF-OPEN integer range
`[a, b)`: the returned value always lies in `[a, b-1]`, and every value of
`[a, b-1]` -- but never `b` itself -- is a possible outcome for some RNG
state. -/
theorem c4_amended (a b : Int) (dt : DTy) (hf : dt.is_float = false)
    (hab : a < b) :
    (∀ fuel g dv gv g1 dv1,
      valueGenValid (fuel + 1) (.range a b) dt g dv = .ok (gv, g1, dv1) →
      ∃ v, gv = ⟨.validValue, .int v, dt⟩ ∧ a ≤ v ∧ v ≤ b - 1) ∧
    (∀ v, a ≤ v → v ≤ b - 1 → ∀ dv, ∃ g g1,
      valueGenValid 1 (.range a b) dt g dv =
        .ok (⟨.validValue, .int v, dt⟩, g1, dv)) := by
  constructor
  · intro fuel g dv gv g1 dv1 h
    simp only [valueGenValid, pyRandrangeInt, drawNat, hf] at h
    rw [if_neg (by omega), if_neg (by simp), if_neg (by omega)] at h
    simp only [bind, Except.bind, Except.ok.injEq, Prod.mk.injEq] at h
    obtain ⟨hgv, -, -⟩ := h
    refine ⟨a + (Int.ofNat (g.headD 0)) % (b - a), hgv.symm, ?_, ?_⟩
    · have := Int.emod_nonneg (Int.ofNat (g.headD 0)) (by omega : b - a ≠ 0)
      omega
    · have := Int.emod_lt_of_pos (Int.ofNat (g.headD 0)) (by omega : 0 < b - a)
      omega
  · intro v hva hvb dv
    refine ⟨[(v - a).toNat], [], ?_⟩
    simp only [valueGenValid, pyRandrangeInt, drawNat, hf]
    rw [if_neg (by omega), if_neg (by simp), if_neg (by omega)]
    simp only [bind, Except.bind, Except.ok.injEq, Prod.mk.injEq]
    refine ⟨?_, by simp, by simp⟩
    have h1 : (Int.ofNat ((v - a).toNat)) = v - a := by
      show (((v - a).toNat : Nat) : Int) = v - a
      omega
    have h2 : (v - a) % (b - a) = v - a := Int.emod_eq_of_lt (by omega) (by omega)
    simp only [List.headD, List.tail]
    rw [h1, h2]
    norm_num

/-- C4 (witness): the amended statement at the concrete range `(0,2)`. -/
theorem c4_amended_witness :
    (∀ fuel g dv gv g1 dv1,
      valueGenValid (fuel + 1) (.range 0 2) (mkUDty 8) g dv = .ok (gv, g1, dv1) →
      ∃ v, gv = ⟨.validValue, .int v, mkUDty 8⟩ ∧ 0 ≤ v ∧ v ≤ 2 - 1) ∧
    (∀ v, 0 ≤ v → v ≤ 2 - 1 → ∀ dv, ∃ g g1,
      valueGenValid 1 (.range 0 2) (mkUDty 8) g dv =
        .ok (⟨.validValue, .int v, mkUDty 8⟩, g1, dv)) :=
  c4_amended 0 2 (mkUDty 8) rfl (by norm_num)

/-! ## C6: choice invalidation can raise despite a positive
`can_generate_invalid_instance` -/

/-- C6 (corrected, counterexample): for the choice whose merged canonical
form is the single range `(0,10)` over U8 (not equal to the full bounds
`0..255`), `can_generate_invalid_instance()` returns `True`, yet
`generate_invalid_value()` raises: `ValueRange.generate_number_not_in_set`
refuses sets of fewer than two ranges (Value.py lines 806-808). -/
theorem c6_counterexample :
    valueCanGen 9 (.choice [.range 0 10]) (mkUDty 8) = .ok true ∧
    valueGenInvalid 9 (.choice [.range 0 10]) (mkUDty 8) [0] [] =
      .error "Cannot generate number outside of set where number of elements are less than 2" :=
  ⟨rfl, rfl⟩

/-- With at least two deduplicated range alternatives and a nonempty gap
at the randomly drawn adjacent pair, `generate_number_not_in_set` returns
a value strictly inside that gap. -/
theorem rangeNotInSet_gap (rs : List PyRange) (dt : DTy) (g : Rng)
    (hint : dt.is_int = true)
    (hn : 2 ≤ (dedupRangeVals [] rs).length)
    (idx : Nat)
    (hidx : (Int.ofNat idx) =
      (Int.ofNat (drawNat g).1) %
        (Int.ofNat ((dedupRangeVals [] rs).length - 2) - 0 + 1))
    (hgap : ((sortRanges (dedupRangeVals [] rs)).getD idx ⟨0, 0⟩).hi + 1 ≤
            ((sortRanges (dedupRangeVals [] rs)).getD (idx + 1) ⟨0, 0⟩).lo - 1) :
    ∃ v, rangeNotInSet rs dt g = .ok (.int v, (drawNat (drawNat g).2).2) ∧
      ((sortRanges (dedupRangeVals [] rs)).getD idx ⟨0, 0⟩).hi < v ∧
      v < ((sortRanges (dedupRangeVals [] rs)).getD (idx + 1) ⟨0, 0⟩).lo := by
  set low := (sortRanges (dedupRangeVals [] rs)).getD idx ⟨0, 0⟩ with hlow
  set high := (sortRanges (dedupRangeVals [] rs)).getD (idx + 1) ⟨0, 0⟩ with hhigh
  have h1 : ¬ (dedupRangeVals [] rs).length < 2 := by omega
  have h2 : ¬ ((0 : Int) > Int.ofNat ((dedupRangeVals [] rs).length - 2)) := by
    simp only [gt_iff_lt, not_lt]
    exact Int.ofNat_nonneg _
  have h3 : ¬ (low.hi + 1 > high.lo - 1) := by omega
  refine ⟨low.hi + 1 +
    (Int.ofNat (drawNat (drawNat g).2).1) % (high.lo - 1 - (low.hi + 1) + 1), ?_, ?_, ?_⟩
  · unfold rangeNotInSet
    dsimp only
    rw [if_neg h1, pyRandint, if_neg h2]
    simp only [bind, Except.bind, zero_add]
    rw [← hidx]
    have hidxt : (Int.ofNat idx).toNat = idx := rfl
    rw [hidxt, ← hlow, ← hhigh, pyRandint, if_neg h3, if_pos hint]
  · have := Int.emod_nonneg (Int.ofNat (drawNat (drawNat g).2).1)
      (by omega : high.lo - 1 - (low.hi + 1) + 1 ≠ 0)
    omega
  · have := Int.emod_lt_of_pos (Int.ofNat (drawNat (drawNat g).2).1)
      (by omega : 0 < high.lo - 1 - (low.hi + 1) + 1)
    omega

/-- C6 (amended): `can_generate_invalid_instance() = true` does not imply
that `generate_invalid_value()` returns: a choice of Ranges raises unless
it has at least two (deduplicated) alternatives.  With two or more sorted
alternatives, when the randomly selected adjacent pair has a nonempty gap,
`generate_invalid_value` returns a `GeneratedValue` classified
`INVALID_VALUE` whose value lies strictly between the two alternatives. -/
theorem c6_amended (items : List ValueT) (rs : List PyRange) (dt : DTy)
    (fuel : Nat) (g : Rng) (dv : Dv)
    (hitems : toRanges items = .ok rs)
    (hhead : ∃ a b t, items = .range a b :: t)
    (hint : dt.is_int = true)
    (hn : 2 ≤ (dedupRangeVals [] rs).length)
    (idx : Nat)
    (hidx : (Int.ofNat idx) =
      (Int.ofNat (drawNat g).1) %
        (Int.ofNat ((dedupRangeVals [] rs).length - 2) - 0 + 1))
    (hgap : ((sortRanges (dedupRangeVals [] rs)).getD idx ⟨0, 0⟩).hi + 1 ≤
            ((sortRanges (dedupRangeVals [] rs)).getD (idx + 1) ⟨0, 0⟩).lo - 1) :
    ∃ v g2, valueGenInvalid (fuel + 1) (.choice items) dt g dv =
        .ok (⟨.invalidValue, .int v, dt⟩, dt, g2, dv) ∧
      ((sortRanges (dedupRangeVals [] rs)).getD idx ⟨0, 0⟩).hi < v ∧
      v < ((sortRanges (dedupRangeVals [] rs)).getD (idx + 1) ⟨0, 0⟩).lo := by
  obtain ⟨a, b, t, rfl⟩ := hhead
  obtain ⟨v, hv, hv1, hv2⟩ := rangeNotInSet_gap rs dt g hint hn idx hidx hgap
  refine ⟨v, (drawNat (drawNat g).2).2, ?_, hv1, hv2⟩
  simp only [valueGenInvalid, List.head?]
  rw [hitems]
  simp only [bind, Except.bind]
  rw [hv]

/-- C6 (witness): the amended statement at the two-range choice
`(0,5)|(10,20)` over U8 with the gap pair drawn at index 0. -/
theorem c6_amended_witness :
    ∃ v g2, valueGenInvalid (3 + 1) (.choice [.range 0 5, .range 10 20]) (mkUDty 8) [0, 0] [] =
        .ok (⟨.invalidValue, .int v, mkUDty 8⟩, mkUDty 8, g2, []) ∧
      ((sortRanges (dedupRangeVals [] [⟨0, 5⟩, ⟨10, 20⟩])).getD 0 ⟨0, 0⟩).hi < v ∧
      v < ((sortRanges (dedupRangeVals [] [⟨0, 5⟩, ⟨10, 20⟩])).getD (0 + 1) ⟨0, 0⟩).lo :=
  c6_amended [.range 0 5, .range 10 20] [⟨0, 5⟩, ⟨10, 20⟩] (mkUDty 8) 3 [0, 0] []
    rfl ⟨0, 5, [.range 10 20], rfl⟩ rfl (by decide) 0 (by decide) (by decide)

/-! ## C8: degradation to valid mode -/

/-- When no field reports `can_generate_invalid_instance`, the scan
collects no indices. -/
theorem collectInvalidIdx_all_false (fuel : Nat) :
    ∀ (fs : List FieldT) (i : Nat),
      (∀ f ∈ fs, fieldCanGen fuel f = .ok false) →
      collectInvalidIdx fuel fs i = .ok [] := by
  intro fs
  induction fs with
  | nil => intro i _; rfl
  | cons f rest ih =>
    intro i h
    have hf := h f (by simp)
    simp only [collectInvalidIdx, hf, bind, Except.bind]
    rw [ih (i + 1) (fun f hf => h f (by simp [hf]))]
    rfl

/-- With `corrupted_field_index = -1` the invalid-mode loop generates
exactly what the valid-mode loop generates and leaves `invalid_info`
untouched. -/
theorem fuzzInvalidLoop_none (fuel : Nat) :
    ∀ (fs : List FieldT) (i : Nat) (info : InvalidInfo) (g : Rng) (dv : Dv),
      fuzzInvalidLoop fuel fs i none info g dv =
        (fuzzValidLoop fuel fs g dv).map (fun p => ((p.1, info), p.2)) := by
  induction fuel with
  | zero => intro fs i info g dv; rfl
  | succ fuel ih =>
    intro fs i info g dv
    cases fs with
    | nil => rfl
    | cons f rest =>
      simp only [fuzzInvalidLoop, fuzzValidLoop, reduceCtorEq, if_false,
        Option.some.injEq, bind, Except.bind]
      by_cases hs : f.dtype.is_struct
      · simp only [hs, if_true]
        cases hpv : pgValidStruct fuel f.dtype.list_count f g dv with
        | error e => simp [Except.map]
        | ok p =>
          obtain ⟨vals, g1, dv1⟩ := p
          simp only [ih, Except.map]
          cases hvl : fuzzValidLoop fuel rest g1 dv1 with
          | error e => rfl
          | ok q => rfl
      · simp only [hs, if_false]
        cases hfv : fieldGenValid fuel f g dv with
        | error e => simp [Except.map]
        | ok p =>
          obtain ⟨gv, g1, dv1⟩ := p
          simp only [ih, Except.map]
          cases hvl : fuzzValidLoop fuel rest g1 dv1 with
          | error e => rfl
          | ok q => rfl

/-- C8 (confirmed): for a message in which no field reports
`can_generate_invalid_instance() = true`, requesting invalid mode degrades
to valid mode -- `fuzz_msg_type(msg, valid=False)` computes exactly what
`fuzz_msg_type(msg, valid=True)` computes (same values, same RNG and
dependency-table consumption, no error) -- and any produced result carries
`is_valid = True`. -/
theorem c8_no_invalidatable_degrades_to_valid (fuel : Nat) (msg : MessageTypeT)
    (g : Rng) (dv : Dv)
    (h : ∀ f ∈ msg.fields, fieldCanGen fuel f = .ok false) :
    fuzzMsgType (fuel + 1) msg false g dv = fuzzMsgType (fuel + 1) msg true g dv ∧
    (∀ res g1 dv1, fuzzMsgType (fuel + 1) msg true g dv = .ok (res, g1, dv1) →
      res.is_valid = true) := by
  constructor
  · simp only [fuzzMsgType, Bool.false_eq_true, if_false, if_true,
      collectInvalidIdx_all_false fuel msg.fields 0 h, bind, Except.bind]
    rw [fuzzInvalidLoop_none]
    cases hvl : fuzzValidLoop fuel msg.fields g dv with
    | error e => rfl
    | ok p => rfl
  · intro res g1 dv1 hres
    simp only [fuzzMsgType, if_true, bind, Except.bind] at hres
    cases hvl : fuzzValidLoop fuel msg.fields g dv with
    | error e => rw [hvl] at hres; cases hres
    | ok p =>
      rw [hvl] at hres
      obtain ⟨vals, g2, dv2⟩ := p
      simp only [Except.ok.injEq, Prod.mk.injEq] at hres
      obtain ⟨hr, -, -⟩ := hres
      rw [← hr]

/-- C8 (witness): a message whose only field is strict -- invalid mode
computes exactly the valid-mode result. -/
theorem c8_witness :
    fuzzMsgType (5 + 1) ⟨"m", [⟨"f", true, some (.single 1), mkUDty 8⟩]⟩ false [0] [] =
      fuzzMsgType (5 + 1) ⟨"m", [⟨"f", true, some (.single 1), mkUDty 8⟩]⟩ true [0] [] :=
  (c8_no_invalidatable_degrades_to_valid 5 ⟨"m", [⟨"f", true, some (.single 1), mkUDty 8⟩]⟩
    [0] [] (by intro f hf; simp only [List.mem_singleton] at hf; subst hf; rfl)).1

/-! ## C1: single-fault injection -/

/-- A message with one invalidatable field: a `ValueSingle` constraint `0`
over the 1-bit unsigned type. -/
def msgC : MessageTypeT := ⟨"m", [⟨"f", false, some (.single 0), dtU1⟩]⟩

/-- C1 (corrected, counterexample): `msgC` has an invalidatable field
(`ValueSingle.can_generate_invalid_instance` is always true), yet with an
RNG stream that keeps drawing the literal's own value the resample budget
of `ValueSingle.generate_invalid_value` is exhausted, the generation
degrades to classification `VALID_VALUE`, and the returned message has
ZERO fields with a non-valid classification while `is_valid` is still
reported `False` and the manifest info reads `"f - VALID_VALUE"`. -/
theorem c1_counterexample :
    fuzzMsgType 10 msgC false (List.replicate 12 0) [] =
      .ok (⟨[⟨.validValue, .int 0, { dtU1 with is_list := true }⟩], false,
            .str "f - VALID_VALUE"⟩, [], []) ∧
    countNonValid [⟨.validValue, .int 0, { dtU1 with is_list := true }⟩] = 0 ∧
    fieldCanGen 9 ⟨"f", false, some (.single 0), dtU1⟩ = .ok true :=
  ⟨rfl, rfl, rfl⟩

/-- Every value produced by `DType.generate_valid_value` carries the
`VALID_VALUE` classification. -/
theorem dtypeGenValid_valid {dt : DTy} {g : Rng} {dv : Dv} {gv : GenV} {g1 : Rng} {dv1 : Dv}
    (h : dtypeGenValid dt g dv = .ok (gv, g1, dv1)) : gv.value_type = .validValue := by
  unfold dtypeGenValid at h
  simp only [bind, Except.bind] at h
  repeat' split at h
  all_goals simp_all
  all_goals (obtain ⟨h1, -, -⟩ := h; rw [← h1])

/-- Every value produced by a `generate_valid_value` call on any Value
variant carries the `VALID_VALUE` classification. -/
theorem valueGenValid_valid : ∀ (fuel : Nat) (v : ValueT) (dt : DTy) (g : Rng) (dv : Dv)
    {gv : GenV} {g1 : Rng} {dv1 : Dv},
    valueGenValid fuel v dt g dv = .ok (gv, g1, dv1) → gv.value_type = .validValue := by
  intro fuel
  induction fuel with
  | zero => intro v dt g dv gv g1 dv1 h; cases h
  | succ fuel ih =>
    intro v dt g dv gv g1 dv1 h
    cases v with
    | single x =>
      simp only [valueGenValid, Except.ok.injEq, Prod.mk.injEq] at h
      obtain ⟨h1, -, -⟩ := h
      rw [← h1]
    | range lo hi =>
      unfold valueGenValid at h
      simp only [bind, Except.bind] at h
      repeat' split at h
      all_goals simp_all
      all_goals (obtain ⟨h1, -, -⟩ := h; rw [← h1])
    | choice items =>
      unfold valueGenValid at h
      simp only [bind, Except.bind] at h
      cases hr : pyRandrange items.length g with
      | error e => rw [hr] at h; cases h
      | ok p => rw [hr] at h; exact ih _ _ _ _ h
    | vlist items =>
      unfold valueGenValid at h
      simp only [bind, Except.bind] at h
      cases hr : valueListGenValidVals fuel items dt g dv with
      | error e => rw [hr] at h; cases h
      | ok p =>
        rw [hr] at h
        obtain ⟨vals, g2, dv2⟩ := p
        simp only [Except.ok.injEq, Prod.mk.injEq] at h
        obtain ⟨h1, -, -⟩ := h
        rw [← h1]

/-- Every value produced by `FieldDef.generate_valid_value` carries the
`VALID_VALUE` classification. -/
theorem fieldGenValid_valid {fuel : Nat} {f : FieldT} {g : Rng} {dv : Dv}
    {gv : GenV} {g1 : Rng} {dv1 : Dv}
    (h : fieldGenValid fuel f g dv = .ok (gv, g1, dv1)) : gv.value_type = .validValue := by
  unfold fieldGenValid at h
  cases hv : f.value with
  | some v =>
    rw [hv] at h
    simp only [bind, Except.bind] at h
    cases hr : valueGenValid fuel v f.dtype g dv with
    | error e => rw [hr] at h; cases h
    | ok p =>
      rw [hr] at h
      obtain ⟨gv2, g2, dv2⟩ := p
      simp only [Except.ok.injEq, Prod.mk.injEq] at h
      obtain ⟨h1, -, -⟩ := h
      rw [← h1]
      exact valueGenValid_valid fuel v f.dtype g dv hr
  | none =>
    rw [hv] at h
    exact dtypeGenValid_valid h

/-- Every value produced by `Struct.generate_valid_values` (and its member
and repetition loops) carries the `VALID_VALUE` classification. -/
theorem structValid_pack : ∀ fuel : Nat,
    (∀ (s : StructT) (g : Rng) (dv : Dv) (out : List GenV) (g1 : Rng) (dv1 : Dv),
      structGenValidValues fuel s g dv = .ok (out, g1, dv1) →
      ∀ gv ∈ out, gv.value_type = .validValue) ∧
    (∀ (ms : List FieldT) (g : Rng) (dv : Dv) (out : List GenV) (g1 : Rng) (dv1 : Dv),
      structMembersVals fuel ms g dv = .ok (out, g1, dv1) →
      ∀ gv ∈ out, gv.value_type = .validValue) ∧
    (∀ (n : Nat) (s : StructT) (g : Rng) (dv : Dv) (out : List GenV) (g1 : Rng) (dv1 : Dv),
      structRepeatVals fuel n s g dv = .ok (out, g1, dv1) →
      ∀ gv ∈ out, gv.value_type = .validValue) := by
  intro fuel
  induction fuel with
  | zero =>
    refine ⟨?_, ?_, ?_⟩
    · intro s g dv out g1 dv1 h; cases h
    · intro ms g dv out g1 dv1 h; cases h
    · intro n s g dv out g1 dv1 h; cases h
  | succ fuel ih =>
    obtain ⟨ihs, ihm, ihr⟩ := ih
    refine ⟨?_, ?_, ?_⟩
    · intro s g dv out g1 dv1 h
      exact ihm s.members g dv out g1 dv1 h
    · intro ms g dv out g1 dv1 h
      cases ms with
      | nil =>
        simp only [structMembersVals, Except.ok.injEq, Prod.mk.injEq] at h
        obtain ⟨h1, -, -⟩ := h
        rw [← h1]; intro gv hgv; cases hgv
      | cons m rest =>
        unfold structMembersVals at h
        simp only [bind, Except.bind] at h
        by_cases hs : m.dtype.is_struct
        · rw [if_pos (by simp [hs])] at h
          cases hll : memberListLen m.dtype dv with
          | error e => rw [hll] at h; dsimp only at h; cases h
          | ok ll =>
            rw [hll] at h; dsimp only at h
            cases hsr : m.dtype.struct_ref with
            | none => rw [hsr] at h; cases h
            | some s =>
              rw [hsr] at h; dsimp only at h
              cases hrep : structRepeatVals fuel ll.toNat s g dv with
              | error e => rw [hrep] at h; cases h
              | ok p =>
                rw [hrep] at h; dsimp only at h
                obtain ⟨vs, g2, dv2⟩ := p
                cases hrest : structMembersVals fuel rest g2 dv2 with
                | error e => rw [hrest] at h; cases h
                | ok q =>
                  rw [hrest] at h; dsimp only at h
                  obtain ⟨rs, g3, dv3⟩ := q
                  simp only [Except.ok.injEq, Prod.mk.injEq] at h
                  obtain ⟨h1, -, -⟩ := h
                  rw [← h1]
                  intro gv hgv
                  rcases List.mem_append.mp hgv with hmem | hmem
                  · exact ihr ll.toNat s g dv vs g2 dv2 hrep gv hmem
                  · exact ihm rest g2 dv2 rs g3 dv3 hrest gv hmem
        · rw [if_neg (by simp [hs])] at h
          cases hfv : fieldGenValid fuel m g dv with
          | error e => rw [hfv] at h; cases h
          | ok p =>
            rw [hfv] at h; dsimp only at h
            obtain ⟨gv0, g2, dv2⟩ := p
            cases hrest : structMembersVals fuel rest g2 dv2 with
            | error e => rw [hrest] at h; cases h
            | ok q =>
              rw [hrest] at h; dsimp only at h
              obtain ⟨rs, g3, dv3⟩ := q
              simp only [Except.ok.injEq, Prod.mk.injEq] at h
              obtain ⟨h1, -, -⟩ := h
              rw [← h1]
              intro gv hgv
              rcases List.mem_cons.mp hgv with hmem | hmem
              · rw [hmem]; exact fieldGenValid_valid hfv
              · exact ihm rest g2 dv2 rs g3 dv3 hrest gv hmem
    · intro n s g dv out g1 dv1 h
      cases n with
      | zero =>
        simp only [structRepeatVals, Except.ok.injEq, Prod.mk.injEq] at h
        obtain ⟨h1, -, -⟩ := h
        rw [← h1]; intro gv hgv; cases hgv
      | succ n =>
        unfold structRepeatVals at h
        simp only [bind, Except.bind] at h
        cases hsv : structGenValidValues fuel s g dv with
        | error e => rw [hsv] at h; cases h
        | ok p =>
          rw [hsv] at h; dsimp only at h
          obtain ⟨vs, g2, dv2⟩ := p
          cases hrep : structRepeatVals fuel n s g2 dv2 with
          | error e => rw [hrep] at h; cases h
          | ok q =>
            rw [hrep] at h; dsimp only at h
            obtain ⟨rs, g3, dv3⟩ := q
            simp only [Except.ok.injEq, Prod.mk.injEq] at h
            obtain ⟨h1, -, -⟩ := h
            rw [← h1]
            intro gv hgv
            rcases List.mem_append.mp hgv with hmem | hmem
            · exact ihs s g dv vs g2 dv2 hsv gv hmem
            · exact ihr n s g2 dv2 rs g3 dv3 hrep gv hmem

/-- The non-valid count is additive over concatenation. -/
theorem countNonValid_append (a b : List GenV) :
    countNonValid (a ++ b) = countNonValid a + countNonValid b := by
  simp [countNonValid]

/-- The non-valid count of a cons adds at most one for the head. -/
theorem countNonValid_cons (gv : GenV) (l : List GenV) :
    countNonValid (gv :: l) =
      (if gv.value_type = .validValue then 0 else 1) + countNonValid l := by
  by_cases h : gv.value_type = .validValue <;> simp [countNonValid, h]
  omega

/-- A list of all-valid classifications has non-valid count zero. -/
theorem countNonValid_eq_zero {l : List GenV}
    (h : ∀ gv ∈ l, gv.value_type = .validValue) : countNonValid l = 0 := by
  induction l with
  | nil => rfl
  | cons x xs ih =>
    rw [countNonValid_cons, if_pos (h x (List.mem_cons_self x xs)),
      ih (fun gv hg => h gv (List.mem_cons_of_mem x hg))]

/-- Every value produced by `generate_valid_struct` carries the
`VALID_VALUE` classification. -/
theorem pgValidStruct_valid {fuel oc : Nat} {sf : FieldT} {g : Rng} {dv : Dv}
    {vals : List GenV} {g1 : Rng} {dv1 : Dv}
    (h : pgValidStruct fuel oc sf g dv = .ok (vals, g1, dv1)) :
    ∀ gv ∈ vals, gv.value_type = .validValue := by
  cases fuel with
  | zero => cases h
  | succ fuel =>
    unfold pgValidStruct at h
    simp only [bind, Except.bind] at h
    cases hll : pgStructListLen oc sf dv with
    | error e => rw [hll] at h; cases h
    | ok ll =>
      rw [hll] at h; dsimp only at h
      cases hsr : sf.dtype.struct_ref with
      | none => rw [hsr] at h; cases h
      | some s =>
        rw [hsr] at h; dsimp only at h
        exact (structValid_pack fuel).2.2 ll.toNat s g dv vals g1 dv1 h

/-- Every value produced by repeated `generate_valid_struct` calls carries
the `VALID_VALUE` classification. -/
theorem pgValidStructNTimes_valid {fuel oc : Nat} {sf : FieldT} : ∀ {n : Nat}
    {g : Rng} {dv : Dv} {vals : List GenV} {g1 : Rng} {dv1 : Dv},
    pgValidStructNTimes fuel oc sf n g dv = .ok (vals, g1, dv1) →
    ∀ gv ∈ vals, gv.value_type = .validValue := by
  intro n
  induction n with
  | zero =>
    intro g dv vals g1 dv1 h
    simp only [pgValidStructNTimes, Except.ok.injEq, Prod.mk.injEq] at h
    obtain ⟨h1, -, -⟩ := h
    rw [← h1]; intro gv hgv; cases hgv
  | succ n ih =>
    intro g dv vals g1 dv1 h
    unfold pgValidStructNTimes at h
    simp only [bind, Except.bind] at h
    cases hv : pgValidStruct fuel oc sf g dv with
    | error e => rw [hv] at h; cases h
    | ok p =>
      rw [hv] at h; dsimp only at h
      obtain ⟨vs, g2, dv2⟩ := p
      cases hr : pgValidStructNTimes fuel oc sf n g2 dv2 with
      | error e => rw [hr] at h; cases h
      | ok q =>
        rw [hr] at h; dsimp only at h
        obtain ⟨rs, g3, dv3⟩ := q
        simp only [Except.ok.injEq, Prod.mk.injEq] at h
        obtain ⟨h1, -, -⟩ := h
        rw [← h1]
        intro gv hgv
        rcases List.mem_append.mp hgv with hmem | hmem
        · exact pgValidStruct_valid hv gv hmem
        · exact ih hr gv hmem

/-- `generate_invalid_struct` injects at most one non-valid classification:
the corrupted member contributes at most one (its own generation can
degrade to `VALID_VALUE`), members before and after the corruption index
are generated valid, and the list-length fault produces only valid
elements. -/
theorem pgInvalid_pack : ∀ fuel : Nat,
    (∀ (oc : Nat) (sf : FieldT) (g : Rng) (dv : Dv) (info : InvalidInfo)
       (vals : List GenV) (g1 : Rng) (dv1 : Dv),
      pgInvalidStruct fuel oc sf g dv = .ok (info, vals, g1, dv1) →
      countNonValid vals ≤ 1) ∧
    (∀ (oc : Nat) (ms : List FieldT) (i idx : Nat) (info0 : InvalidInfo)
       (g : Rng) (dv : Dv) (vals : List GenV) (infoF : InvalidInfo)
       (g1 : Rng) (dv1 : Dv),
      pgInvalidMembers fuel oc ms i idx info0 g dv = .ok ((vals, infoF), g1, dv1) →
      countNonValid vals ≤ 1 ∧ (idx < i → countNonValid vals = 0)) := by
  intro fuel
  induction fuel with
  | zero =>
    constructor
    · intro oc sf g dv info vals g1 dv1 h; cases h
    · intro oc ms i idx info0 g dv vals infoF g1 dv1 h; cases h
  | succ fuel ih =>
    obtain ⟨ihs, ihm⟩ := ih
    constructor
    · intro oc sf g dv info vals g1 dv1 h
      unfold pgInvalidStruct at h
      simp only [bind, Except.bind] at h
      cases hsr : sf.dtype.struct_ref with
      | none => rw [hsr] at h; cases h
      | some sref =>
        rw [hsr] at h; dsimp only at h
        by_cases hl : sf.dtype.is_list
        · rw [if_pos hl] at h
          cases hll : pgStructListLen oc sf dv with
          | error e => rw [hll] at h; cases h
          | ok ll =>
            rw [hll] at h; dsimp only at h
            split at h
            · cases h
            · rename_i p hnt
              obtain ⟨vs, g2, dv2⟩ := p
              simp only [Except.ok.injEq, Prod.mk.injEq] at h
              obtain ⟨-, h2, -, -⟩ := h
              rw [← h2]
              rw [countNonValid_eq_zero (pgValidStructNTimes_valid hnt)]
              exact Nat.zero_le 1
        · rw [if_neg hl] at h
          cases hci : pgCorruptableIdx fuel sref.members 0 with
          | error e => rw [hci] at h; cases h
          | ok idxs =>
            rw [hci] at h; dsimp only at h
            cases idxs with
            | nil => cases h
            | cons j js =>
              cases hr : pyRandrange (j :: js).length g with
              | error e => rw [hr] at h; cases h
              | ok rp =>
                rw [hr] at h; dsimp only at h
                obtain ⟨r, g2⟩ := rp
                cases him : pgInvalidMembers fuel oc sref.members 0
                    ((j :: js).getD r 0) (.itype .validValue) g2 dv with
                | error e => rw [him] at h; cases h
                | ok q =>
                  rw [him] at h; dsimp only at h
                  obtain ⟨⟨vs, info2⟩, g3, dv3⟩ := q
                  simp only [Except.ok.injEq, Prod.mk.injEq] at h
                  obtain ⟨-, h2, -, -⟩ := h
                  rw [← h2]
                  exact (ihm oc sref.members 0 ((j :: js).getD r 0)
                    (.itype .validValue) g2 dv vs info2 g3 dv3 him).1
    · intro oc ms i idx info0 g dv vals infoF g1 dv1 h
      cases ms with
      | nil =>
        simp only [pgInvalidMembers, Except.ok.injEq, Prod.mk.injEq] at h
        obtain ⟨⟨h1, -⟩, -, -⟩ := h
        rw [← h1]
        exact ⟨Nat.zero_le 1, fun _ => rfl⟩
      | cons m rest =>
        unfold pgInvalidMembers at h
        simp only [bind, Except.bind] at h
        by_cases hstr : m.dtype.is_struct
        · rw [if_pos (by simp [hstr])] at h
          by_cases hidx : i = idx
          · rw [if_pos (by simp [hidx])] at h
            cases hs1 : pgInvalidStruct fuel oc m g dv with
            | error e => rw [hs1] at h; cases h
            | ok p =>
              rw [hs1] at h; dsimp only at h
              obtain ⟨info2, vs, g2, dv2⟩ := p
              cases hs2 : pgInvalidMembers fuel oc rest (i + 1) idx info2 g2 dv2 with
              | error e => rw [hs2] at h; cases h
              | ok q =>
                rw [hs2] at h; dsimp only at h
                obtain ⟨⟨rs, infoG⟩, g3, dv3⟩ := q
                simp only [Except.ok.injEq, Prod.mk.injEq] at h
                obtain ⟨⟨h1, -⟩, -, -⟩ := h
                rw [← h1, countNonValid_append]
                have hv := ihs oc m g dv info2 vs g2 dv2 hs1
                have hrec := ihm oc rest (i + 1) idx info2 g2 dv2 rs infoG g3 dv3 hs2
                have hrest0 : countNonValid rs = 0 := hrec.2 (by omega)
                exact ⟨by omega, fun hlt => by omega⟩
          · rw [if_neg (by simp [hidx])] at h
            cases hs1 : pgValidStruct fuel oc m g dv with
            | error e => rw [hs1] at h; cases h
            | ok p =>
              rw [hs1] at h; dsimp only at h
              obtain ⟨vs, g2, dv2⟩ := p
              cases hs2 : pgInvalidMembers fuel oc rest (i + 1) idx info0 g2 dv2 with
              | error e => rw [hs2] at h; cases h
              | ok q =>
                rw [hs2] at h; dsimp only at h
                obtain ⟨⟨rs, infoG⟩, g3, dv3⟩ := q
                simp only [Except.ok.injEq, Prod.mk.injEq] at h
                obtain ⟨⟨h1, -⟩, -, -⟩ := h
                rw [← h1, countNonValid_append]
                have hv : countNonValid vs = 0 :=
                  countNonValid_eq_zero (pgValidStruct_valid hs1)
                have hrec := ihm oc rest (i + 1) idx info0 g2 dv2 rs infoG g3 dv3 hs2
                have h2 := hrec.1
                refine ⟨by omega, fun hlt => ?_⟩
                have hrest0 : countNonValid rs = 0 := hrec.2 (by omega)
                omega
        · rw [if_neg (by simp [hstr])] at h
          by_cases hidx : i = idx
          · rw [if_pos (by simp [hidx])] at h
            cases hs1 : fieldGenInvalid fuel m g dv with
            | error e => rw [hs1] at h; cases h
            | ok p =>
              rw [hs1] at h; dsimp only at h
              obtain ⟨gv, dt2, g2, dv2⟩ := p
              cases hs2 : pgInvalidMembers fuel oc rest (i + 1) idx
                  (.str (m.name ++ " - " ++ gv.value_type.pyName)) g2 dv2 with
              | error e => rw [hs2] at h; cases h
              | ok q =>
                rw [hs2] at h; dsimp only at h
                obtain ⟨⟨rs, infoG⟩, g3, dv3⟩ := q
                simp only [Except.ok.injEq, Prod.mk.injEq] at h
                obtain ⟨⟨h1, -⟩, -, -⟩ := h
                rw [← h1, countNonValid_cons]
                have hrec := ihm oc rest (i + 1) idx _ g2 dv2 rs infoG g3 dv3 hs2
                have hrest0 : countNonValid rs = 0 := hrec.2 (by omega)
                refine ⟨?_, fun hlt => by omega⟩
                by_cases hgv : gv.value_type = .validValue
                · rw [if_pos hgv]; omega
                · rw [if_neg hgv]; omega
          · rw [if_neg (by simp [hidx])] at h
            cases hs1 : fieldGenValid fuel m g dv with
            | error e => rw [hs1] at h; cases h
            | ok p =>
              rw [hs1] at h; dsimp only at h
              obtain ⟨gv, g2, dv2⟩ := p
              cases hs2 : pgInvalidMembers fuel oc rest (i + 1) idx info0 g2 dv2 with
              | error e => rw [hs2] at h; cases h
              | ok q =>
                rw [hs2] at h; dsimp only at h
                obtain ⟨⟨rs, infoG⟩, g3, dv3⟩ := q
                simp only [Except.ok.injEq, Prod.mk.injEq] at h
                obtain ⟨⟨h1, -⟩, -, -⟩ := h
                rw [← h1, countNonValid_cons,
                  if_pos (fieldGenValid_valid hs1)]
                have hrec := ihm oc rest (i + 1) idx info0 g2 dv2 rs infoG g3 dv3 hs2
                have h2 := hrec.1
                refine ⟨by omega, fun hlt => ?_⟩
                have hrest0 : countNonValid rs = 0 := hrec.2 (by omega)
                omega

/-- The invalid-mode field loop of `fuzz_msg_type` with a concrete
corruption index yields at most one non-valid classification, and none at
all once the loop has passed the index. -/
theorem fuzzInvalidLoop_count : ∀ (fuel : Nat) (fs : List FieldT) (i idx : Nat)
    (info0 : InvalidInfo) (g : Rng) (dv : Dv) (vals : List GenV)
    (infoF : InvalidInfo) (g1 : Rng) (dv1 : Dv),
    fuzzInvalidLoop fuel fs i (some idx) info0 g dv = .ok ((vals, infoF), g1, dv1) →
    countNonValid vals ≤ 1 ∧ (idx < i → countNonValid vals = 0) := by
  intro fuel
  induction fuel with
  | zero => intro fs i idx info0 g dv vals infoF g1 dv1 h; cases h
  | succ fuel ih =>
    intro fs i idx info0 g dv vals infoF g1 dv1 h
    cases fs with
    | nil =>
      simp only [fuzzInvalidLoop, Except.ok.injEq, Prod.mk.injEq] at h
      obtain ⟨⟨h1, -⟩, -, -⟩ := h
      rw [← h1]
      exact ⟨Nat.zero_le 1, fun _ => rfl⟩
    | cons f rest =>
      unfold fuzzInvalidLoop at h
      simp only [bind, Except.bind] at h
      by_cases hstr : f.dtype.is_struct
      · rw [if_pos (by simp [hstr])] at h
        by_cases hidx : idx = i
        · rw [if_pos (by simp [hidx])] at h
          cases hs1 : pgInvalidStruct fuel f.dtype.list_count f g dv with
          | error e => rw [hs1] at h; cases h
          | ok p =>
            rw [hs1] at h; dsimp only at h
            obtain ⟨info2, vs, g2, dv2⟩ := p
            cases hs2 : fuzzInvalidLoop fuel rest (i + 1) (some idx) info2 g2 dv2 with
            | error e => rw [hs2] at h; cases h
            | ok q =>
              rw [hs2] at h; dsimp only at h
              obtain ⟨⟨rs, infoG⟩, g3, dv3⟩ := q
              simp only [Except.ok.injEq, Prod.mk.injEq] at h
              obtain ⟨⟨h1, -⟩, -, -⟩ := h
              rw [← h1, countNonValid_append]
              have hv := ((pgInvalid_pack fuel).1) f.dtype.list_count f g dv
                info2 vs g2 dv2 hs1
              have hrec := ih rest (i + 1) idx info2 g2 dv2 rs infoG g3 dv3 hs2
              have hrest0 : countNonValid rs = 0 := hrec.2 (by omega)
              exact ⟨by omega, fun hlt => by omega⟩
        · rw [if_neg (by simp [hidx])] at h
          cases hs1 : pgValidStruct fuel f.dtype.list_count f g dv with
          | error e => rw [hs1] at h; cases h
          | ok p =>
            rw [hs1] at h; dsimp only at h
            obtain ⟨vs, g2, dv2⟩ := p
            cases hs2 : fuzzInvalidLoop fuel rest (i + 1) (some idx) info0 g2 dv2 with
            | error e => rw [hs2] at h; cases h
            | ok q =>
              rw [hs2] at h; dsimp only at h
              obtain ⟨⟨rs, infoG⟩, g3, dv3⟩ := q
              simp only [Except.ok.injEq, Prod.mk.injEq] at h
              obtain ⟨⟨h1, -⟩, -, -⟩ := h
              rw [← h1, countNonValid_append]
              have hv : countNonValid vs = 0 :=
                countNonValid_eq_zero (pgValidStruct_valid hs1)
              have hrec := ih rest (i + 1) idx info0 g2 dv2 rs infoG g3 dv3 hs2
              have h2 := hrec.1
              refine ⟨by omega, fun hlt => ?_⟩
              have hrest0 : countNonValid rs = 0 := hrec.2 (by omega)
              omega
      · rw [if_neg (by simp [hstr])] at h
        by_cases hidx : idx = i
        · rw [if_pos (by simp [hidx])] at h
          cases hs1 : fieldGenInvalid fuel f g dv with
          | error e => rw [hs1] at h; cases h
          | ok p =>
            rw [hs1] at h; dsimp only at h
            obtain ⟨gv, dt2, g2, dv2⟩ := p
            cases hs2 : fuzzInvalidLoop fuel rest (i + 1) (some idx)
                (.str (f.name ++ " - " ++ gv.value_type.pyName)) g2 dv2 with
            | error e => rw [hs2] at h; cases h
            | ok q =>
              rw [hs2] at h; dsimp only at h
              obtain ⟨⟨rs, infoG⟩, g3, dv3⟩ := q
              simp only [Except.ok.injEq, Prod.mk.injEq] at h
              obtain ⟨⟨h1, -⟩, -, -⟩ := h
              rw [← h1, countNonValid_cons]
              have hrec := ih rest (i + 1) idx _ g2 dv2 rs infoG g3 dv3 hs2
              have hrest0 : countNonValid rs = 0 := hrec.2 (by omega)
              refine ⟨?_, fun hlt => by omega⟩
              by_cases hgv : gv.value_type = .validValue
              · rw [if_pos hgv]; omega
              · rw [if_neg hgv]; omega
        · rw [if_neg (by simp [hidx])] at h
          cases hs1 : fieldGenValid fuel f g dv with
          | error e => rw [hs1] at h; cases h
          | ok p =>
            rw [hs1] at h; dsimp only at h
            obtain ⟨gv, g2, dv2⟩ := p
            cases hs2 : fuzzInvalidLoop fuel rest (i + 1) (some idx) info0 g2 dv2 with
            | error e => rw [hs2] at h; cases h
            | ok q =>
              rw [hs2] at h; dsimp only at h
              obtain ⟨⟨rs, infoG⟩, g3, dv3⟩ := q
              simp only [Except.ok.injEq, Prod.mk.injEq] at h
              obtain ⟨⟨h1, -⟩, -, -⟩ := h
              rw [← h1, countNonValid_cons, if_pos (fieldGenValid_valid hs1)]
              have hrec := ih rest (i + 1) idx info0 g2 dv2 rs infoG g3 dv3 hs2
              have h2 := hrec.1
              refine ⟨by omega, fun hlt => ?_⟩
              have hrest0 : countNonValid rs = 0 := hrec.2 (by omega)
              omega

/-- The invalidatable-field scan returns a non-empty index list whenever
some field reports `can_generate_invalid_instance()`. -/
theorem collectInvalidIdx_ne_nil {fuel : Nat} : ∀ {fs : List FieldT} {i : Nat}
    {idxs : List Nat},
    collectInvalidIdx fuel fs i = .ok idxs →
    (∃ f ∈ fs, fieldCanGen fuel f = .ok true) → idxs ≠ [] := by
  intro fs
  induction fs with
  | nil =>
    intro i idxs h hmem
    obtain ⟨f, hf, -⟩ := hmem
    cases hf
  | cons f rest ih =>
    intro i idxs h hmem
    unfold collectInvalidIdx at h
    simp only [bind, Except.bind] at h
    cases hb : fieldCanGen fuel f with
    | error e => rw [hb] at h; cases h
    | ok b =>
      rw [hb] at h; dsimp only at h
      cases hr : collectInvalidIdx fuel rest (i + 1) with
      | error e => rw [hr] at h; cases h
      | ok rs =>
        rw [hr] at h; dsimp only at h
        simp only [Except.ok.injEq] at h
        obtain ⟨f0, hf0, hcan0⟩ := hmem
        rcases List.mem_cons.mp hf0 with hf0 | hf0
        · rw [← hf0] at hb
          rw [hcan0] at hb
          simp only [Except.ok.injEq] at hb
          rw [← h, ← hb]
          simp
        · have : rs ≠ [] := ih hr ⟨f0, hf0, hcan0⟩
          rw [← h]
          cases b
          · simpa using this
          · simp

/-- A message with one invalidatable field: a `ValueSingle` constraint `0`
over the unsigned 8-bit type. -/
def msgD : MessageTypeT := ⟨"m", [⟨"g", false, some (.single 0), mkUDty 8⟩]⟩

/-- C1 (amended): for every message type with at least one field whose
`can_generate_invalid_instance()` is true, an invalid-mode generation call
(`fuzz_msg_type` with `valid=False`) that returns injects at most one
fault: `is_valid` is reported `False` and AT MOST one field of the
returned message carries a non-valid classification — exactly one in
general, but zero when the chosen field's invalid generation degrades to
`VALID_VALUE` (e.g. a `ValueSingle` that keeps re-drawing its own literal)
or when the fault is a struct list-length corruption, whose extra
repetition consists of valid values. -/
theorem c1_amended {fuel : Nat} {msg : MessageTypeT} {g : Rng} {dv : Dv}
    {res : FuzzResult} {g1 : Rng} {dv1 : Dv}
    (hcan : ∃ f ∈ msg.fields, fieldCanGen fuel f = .ok true)
    (h : fuzzMsgType (fuel + 1) msg false g dv = .ok (res, g1, dv1)) :
    res.is_valid = false ∧ countNonValid res.values ≤ 1 := by
  unfold fuzzMsgType at h
  dsimp only at h
  rw [if_neg Bool.false_ne_true] at h
  simp only [bind, Except.bind] at h
  cases hidxs : collectInvalidIdx fuel msg.fields 0 with
  | error e => rw [hidxs] at h; cases h
  | ok idxs =>
    rw [hidxs] at h; dsimp only at h
    cases idxs with
    | nil => exact absurd rfl (collectInvalidIdx_ne_nil hidxs hcan)
    | cons j js =>
      cases hr : pyRandrange (j :: js).length g with
      | error e => rw [hr] at h; cases h
      | ok rp =>
        rw [hr] at h; dsimp only at h
        obtain ⟨r, g2⟩ := rp
        cases hl : fuzzInvalidLoop fuel msg.fields 0
            (some ((j :: js).getD r 0)) (.str "") g2 dv with
        | error e => rw [hl] at h; cases h
        | ok q =>
          rw [hl] at h; dsimp only at h
          obtain ⟨⟨vals, info⟩, g3, dv3⟩ := q
          simp only [Except.ok.injEq, Prod.mk.injEq] at h
          obtain ⟨h1, -, -⟩ := h
          rw [← h1]
          exact ⟨rfl, (fuzzInvalidLoop_count fuel msg.fields 0 _ _ g2 dv
            vals info g3 dv3 hl).1⟩

/-- C1 (amended, witness): on `msgD` with RNG stream `[0, 1]` the
invalid-mode generation succeeds, reports `is_valid = False` and at most
one non-valid field. -/
theorem c1_amended_witness :
    ∃ res g1 dv1, fuzzMsgType 7 msgD false [0, 1] [] = .ok (res, g1, dv1) ∧
      res.is_valid = false ∧ countNonValid res.values ≤ 1 := by
  obtain ⟨res, g1, dv1, hres⟩ : ∃ res g1 dv1,
      fuzzMsgType 7 msgD false [0, 1] [] = .ok (res, g1, dv1) := ⟨_, _, _, rfl⟩
  exact ⟨res, g1, dv1, hres,
    @c1_amended 6 msgD [0, 1] [] res g1 dv1
      ⟨⟨"g", false, some (.single 0), mkUDty 8⟩, by simp [msgD], rfl⟩ hres⟩
